import Mathlib

/-!
# DoxyEdu web proxy: tab manager and gateway

A shallow embedding of the hand-written logic of the repository:

* `public/browser-index.js`: the class `DoxyEduTabManager` (`init`, `createTab`,
  `navigateTab`, `closeTab`, `registerSW`) and the function `search`;
* `src/index.js`: the stdout handler of the child tunnel process, the upgrade
  handler of the server factory, `shutdown`, and the computation of `port`.

Objects the code allocates (controllers, frames, the bare-mux connection) are
handles drawn from a counter; calls into the browser, the proxy engine and the
transport multiplexer are recorded in a trace, and each of them may throw, as
decided by a fault oracle that is a parameter of every operation.
-/

namespace DoxyEdu

/-! ## Data model of the tab manager -/

abbrev TabId := String

abbrev Url := String

abbrev Handle := Nat

/-- The transport module path compared against and installed by `createTab`. -/
def epoxyTransport : String := "/epoxy/index.mjs"

/-- The record stored per tab: `{ frame, controller, connection, url }`. -/
structure Session where
  frame : Handle
  controller : Handle
  connection : Option Handle   -- `this.bareMuxConnection` at the time of storing
  url : Url
deriving DecidableEq, Repr

/-- External calls made by the tab manager; each one may throw or reject. -/
inductive Call where
  | init            -- `$scramjetLoadController()`
  | register        -- `navigator.serviceWorker.register`
  | getTransport
  | setTransport
  | newController   -- `new this.ScramjetController(...)`
  | controllerInit  -- `scramjet.init()`
  | createFrame     -- `scramjet.createFrame()` and tagging the frame element
  | go              -- `frame.go(url)`
deriving DecidableEq, Repr

/-- The fault oracle of one operation: `φ c = true` when call `c` throws. -/
abbrev Faults := Call → Bool

/-- Exceptions seen by callers of the tab manager. -/
inductive JsError where
  | swUnsupported            -- `new Error('Service workers not supported')`
  | typeError                -- member access on `undefined`
  | thrown (c : Call)        -- whatever the external call `c` threw
deriving DecidableEq, Repr

/-- Observable effects, in program order. -/
inductive Event where
  | log (msg : String)
  | error (msg : String)
  | loadController
  | newBareMux (h : Handle) (worker : String)
  | swRegister (script scope updateViaCache : String)
  | getTransport (conn : Handle)
  | setTransport (conn : Handle) (transport wisp : String)
  | newController (h : Handle) (wasm all sync : String)
  | controllerInit (h : Handle)
  | createFrame (controller frame : Handle)
  | setFrameId (frame : Handle) (id : String)
  | frameGo (frame : Handle) (url : Url)
deriving DecidableEq, Repr

/-- Which of `registration.installing`, `.waiting`, `.active` is set. -/
inductive SwPhase where
  | installing | waiting | active | none
deriving DecidableEq, Repr

/-- The fields of a `DoxyEduTabManager` instance. `tabs` is the `Map`, kept in
insertion order. -/
structure Manager where
  tabs : List (TabId × Session)
  activeTabId : Option TabId
  isInitialized : Bool
  controllerLoaded : Bool            -- `this.ScramjetController` is defined
  bareMuxConnection : Option Handle  -- `this.bareMuxConnection`
deriving DecidableEq, Repr

/-- The manager together with the browsing context it runs in. -/
structure Page where
  mgr : Manager
  protocol : String        -- `location.protocol`
  host : String            -- `location.host`
  swSupported : Bool       -- `'serviceWorker' in navigator`
  swPhase : SwPhase
  transport : String       -- what the bare-mux worker answers to `getTransport`
  nextHandle : Handle      -- allocation counter for fresh objects
  trace : List Event
deriving DecidableEq, Repr

/-- The state right after `new DoxyEduTabManager()`. -/
def Manager.new : Manager :=
  { tabs := [], activeTabId := none, isInitialized := false,
    controllerLoaded := false, bareMuxConnection := none }

/-! ### `Map` operations -/

/-- `Map.prototype.get`. -/
def tabsGet : List (TabId × Session) → TabId → Option Session
  | [], _ => none
  | (k, v) :: rest, id => if k = id then some v else tabsGet rest id

/-- `Map.prototype.set`: an existing key keeps its position. -/
def tabsSet : List (TabId × Session) → TabId → Session → List (TabId × Session)
  | [], id, s => [(id, s)]
  | (k, v) :: rest, id, s => if k = id then (k, s) :: rest else (k, v) :: tabsSet rest id s

/-- `Map.prototype.delete`. Keys of a `Map` are unique; on a list that repeats
a key every entry under it goes. -/
def tabsDelete : List (TabId × Session) → TabId → List (TabId × Session)
  | [], _ => []
  | (k, v) :: rest, id => if k = id then tabsDelete rest id else (k, v) :: tabsDelete rest id

/-- The assignment `tab.url = url` on the record that `tabs.get(id)` returned. -/
def tabsSetUrl : List (TabId × Session) → TabId → Url → List (TabId × Session)
  | [], _, _ => []
  | (k, v) :: rest, id, u =>
    if k = id then (k, { v with url := u }) :: rest else (k, v) :: tabsSetUrl rest id u

/-- The keys of the map, in order. -/
def tabIds (t : List (TabId × Session)) : List TabId := t.map Prod.fst

/-! ### Small helpers on the page -/

def Page.emit (p : Page) (e : Event) : Page := { p with trace := p.trace ++ [e] }

def Page.setTabs (p : Page) (t : List (TabId × Session)) : Page :=
  { p with mgr := { p.mgr with tabs := t } }

/-- The tunnel endpoint computed on lines 46-47. -/
def wispUrl (p : Page) : String :=
  (if p.protocol = "https:" then "wss" else "ws") ++ "://" ++ p.host ++ "/wisp/"

/-- The result of an operation: its completion and the page it leaves. -/
abbrev Outcome (α : Type) := Except JsError α × Page

/-! ### Operations, run without interruption -/

/-- `init()`. There is no `await` inside, so it runs to the end when called. -/
def init (φ : Faults) (p : Page) : Outcome Unit :=
  let p := p.emit (.log "DoxyEdu Tab Manager initializing...")
  let p := p.emit .loadController
  if φ .init then (.error (.thrown .init), p)
  else
    let h := p.nextHandle
    let p := { p with nextHandle := h + 1 }
    let p := p.emit (.newBareMux h "/baremux/worker.js")
    let p := { p with mgr := { p.mgr with controllerLoaded := true,
                                          bareMuxConnection := some h,
                                          isInitialized := true } }
    (.ok (), p.emit (.log "DoxyEdu Tab Manager ready"))

/-- `registerSW()`, up to the call of `navigator.serviceWorker.register`. -/
def registerSWCall (p : Page) : Outcome Unit :=
  if p.swSupported then (.ok (), p.emit (.swRegister "/sw.js" "/" "none"))
  else (.error .swUnsupported, p)

/-- Lines 140-146: the line logged for the phase of the registration. -/
def swPhaseLog : SwPhase → List Event
  | .installing => [.log "Service worker installing"]
  | .waiting => [.log "Service worker installed"]
  | .active => [.log "Service worker active"]
  | .none => []

/-- `registerSW()`, after `register` has settled. -/
def registerSWResume (φ : Faults) (p : Page) : Outcome Unit :=
  if φ .register then
    (.error (.thrown .register), p.emit (.error "Service worker registration failed:"))
  else (.ok (), { p with trace := p.trace ++ swPhaseLog p.swPhase })

/-- `registerSW()`. -/
def registerSW (φ : Faults) (p : Page) : Outcome Unit :=
  match registerSWCall p with
  | (.error e, p) => (.error e, p)
  | (.ok _, p) => registerSWResume φ p

/-- The call `this.bareMuxConnection.getTransport()`: the answer, or the
exception. -/
def getTransport (φ : Faults) (p : Page) : Outcome String :=
  match p.mgr.bareMuxConnection with
  | none => (.error .typeError, p)
  | some conn =>
    let p := p.emit (.getTransport conn)
    if φ .getTransport then (.error (.thrown .getTransport), p) else (.ok p.transport, p)

/-- The call `this.bareMuxConnection.setTransport("/epoxy/index.mjs", [{ wisp }])`. -/
def setTransport (φ : Faults) (p : Page) : Outcome Unit :=
  match p.mgr.bareMuxConnection with
  | none => (.error .typeError, p)
  | some conn =>
    let p := p.emit (.setTransport conn epoxyTransport (wispUrl p))
    if φ .setTransport then (.error (.thrown .setTransport), p)
    else (.ok (), { p with transport := epoxyTransport })

/-- Lines 54-62: `new this.ScramjetController({...})` and the call of
`scramjet.init()`. Returns the controller. -/
def newController (φ : Faults) (p : Page) : Outcome Handle :=
  if !p.mgr.controllerLoaded then (.error .typeError, p)
  else if φ .newController then (.error (.thrown .newController), p)
  else
    let c := p.nextHandle
    let p := { p with nextHandle := c + 1 }
    let p := p.emit (.newController c "/scram/scramjet.wasm.wasm" "/scram/scramjet.all.js"
      "/scram/scramjet.sync.js")
    let p := p.emit (.controllerInit c)
    if φ .controllerInit then (.error (.thrown .controllerInit), p) else (.ok c, p)

/-- Lines 63-77: create and tag the frame, store the session, navigate, return
the frame element (identified with its frame). -/
def finishTab (φ : Faults) (p : Page) (tabId : TabId) (url : Url) (c : Handle) :
    Outcome Handle :=
  if φ .createFrame then (.error (.thrown .createFrame), p)
  else
    let f := p.nextHandle
    let p := { p with nextHandle := f + 1 }
    let p := p.emit (.createFrame c f)
    let p := p.emit (.setFrameId f ("sj-frame-" ++ tabId))
    let p := p.setTabs (tabsSet p.mgr.tabs tabId
      { frame := f, controller := c, connection := p.mgr.bareMuxConnection, url := url })
    let p := p.emit (.frameGo f url)
    if φ .go then (.error (.thrown .go), p) else (.ok f, p)

/-- The `catch (err)` block of `createTab`: log and rethrow. -/
def createTabCatch (tabId : TabId) (e : JsError) (p : Page) : Outcome Handle :=
  (.error e, p.emit (.error ("Failed to create tab " ++ tabId ++ ":")))

/-- The `try` block of `createTab`. -/
def createTabTry (φ : Faults) (p : Page) (tabId : TabId) (url : Url) : Outcome Handle :=
  match registerSW φ p with
  | (.error e, p) => (.error e, p)
  | (.ok _, p) =>
    match getTransport φ p with
    | (.error e, p) => (.error e, p)
    | (.ok t, p) =>
      match (if t ≠ epoxyTransport then setTransport φ p else (.ok (), p)) with
      | (.error e, p) => (.error e, p)
      | (.ok _, p) =>
        match newController φ p with
        | (.error e, p) => (.error e, p)
        | (.ok c, p) => finishTab φ p tabId url c

/-- `createTab(tabId, url)` when nothing else runs at its `await` points. -/
def createTab (φ : Faults) (p : Page) (tabId : TabId) (url : Url) : Outcome Handle :=
  match (if p.mgr.isInitialized then (.ok (), p) else init φ p) with
  | (.error e, p) => (.error e, p)
  | (.ok _, p) =>
    let p := p.emit (.log ("Creating tab " ++ tabId ++ " for URL: " ++ url))
    match createTabTry φ p tabId url with
    | (.error e, p) => createTabCatch tabId e p
    | (.ok f, p) => (.ok f, p)

/-- `navigateTab(tabId, url)`. Returns the frame element when it falls back to
`createTab`, and nothing otherwise. -/
def navigateTab (φ : Faults) (p : Page) (tabId : TabId) (url : Url) :
    Outcome (Option Handle) :=
  match tabsGet p.mgr.tabs tabId with
  | none =>
    match createTab φ p tabId url with
    | (.error e, p) => (.error e, p)
    | (.ok f, p) => (.ok (some f), p)
  | some tab =>
    let p := p.emit (.log ("Navigating tab " ++ tabId ++ " to: " ++ url))
    let p := p.setTabs (tabsSetUrl p.mgr.tabs tabId url)
    let p := p.emit (.frameGo tab.frame url)
    if φ .go then (.error (.thrown .go), p) else (.ok none, p)

/-- `closeTab(tabId)`. -/
def closeTab (p : Page) (tabId : TabId) : Page :=
  match tabsGet p.mgr.tabs tabId with
  | some _ =>
    let p := p.setTabs (tabsDelete p.mgr.tabs tabId)
    p.emit (.log ("Closed tab " ++ tabId))
  | none => p

/-- `setActiveTab(tabId)`. -/
def setActiveTab (p : Page) (tabId : TabId) : Page :=
  { p with mgr := { p.mgr with activeTabId := some tabId } }

/-- `getActiveFrame()`: the active session's frame element, or `null`. -/
def getActiveFrame (p : Page) : Option Handle :=
  match p.mgr.activeTabId with
  | none => none
  | some id => (tabsGet p.mgr.tabs id).map Session.frame

/-- A page whose manager has been initialised and holds no tab. -/
def readyPage : Page :=
  { mgr := { tabs := [], activeTabId := none, isInitialized := true,
             controllerLoaded := true, bareMuxConnection := some 0 },
    protocol := "https:", host := "doxyedu.example", swSupported := true,
    swPhase := .active, transport := "", nextHandle := 1, trace := [] }

/-- No call throws. -/
def noFault : Faults := fun _ => false

/-- Only the call `c` throws. -/
def faultAt (c : Call) : Faults := fun d => decide (d = c)

/-! ### `createTab` as a coroutine

An `async` function runs without interruption from one `await` to the next; at
an `await` other handlers of the event loop may run. A call of `createTab` in
flight is a `Task`: its arguments, its fault oracle, and the `await` at which it
is suspended together with the settlement of the awaited promise. A request to
the bare-mux worker takes effect when it is posted, so requests are served in
the order of the calls. The two resumptions at `await this.registerSW()` (first
inside `registerSW`, then in `createTab`) are taken as one: nothing but logging
happens between them. An exception thrown synchronously inside the `try`
block is delivered at the resumption of the enclosing `await`; this delays
nothing but the `console.error` of the `catch` block.
-/

/-- Where a call of `createTab` is suspended. -/
inductive Pc where
  | start                                            -- called, not yet run
  | awaitInit (r : Except JsError Unit)              -- `await this.init()`
  | awaitRegisterSW (r : Except JsError Unit)        -- `await this.registerSW()`
  | awaitGetTransport (r : Except JsError String)    -- `await ...getTransport()`
  | awaitSetTransport (r : Except JsError Unit)      -- `await ...setTransport(...)`
  | awaitControllerInit (r : Except JsError Handle)  -- `await scramjet.init()`
  | done (r : Except JsError Handle)                 -- settled

/-- A call `createTab(tabId, url)` in flight. -/
structure Task where
  tabId : TabId
  url : Url
  φ : Faults
  pc : Pc

/-- Line 39 and the call of `registerSW()`. -/
def Task.afterInit (t : Task) (p : Page) : Pc × Page :=
  let p := p.emit (.log ("Creating tab " ++ t.tabId ++ " for URL: " ++ t.url))
  let (r, p) := registerSWCall p
  (.awaitRegisterSW r, p)

/-- The `catch` block, settling the call. -/
def Task.fail (t : Task) (e : JsError) (p : Page) : Pc × Page :=
  let (r, p) := createTabCatch t.tabId e p
  (.done r, p)

/-- Lines 54-62, up to `await scramjet.init()`. -/
def Task.toController (t : Task) (p : Page) : Pc × Page :=
  let (r, p) := newController t.φ p
  (.awaitControllerInit r, p)

/-- Run the call from where it is suspended to its next `await`, or to its end. -/
def Task.step (t : Task) (p : Page) : Pc × Page :=
  match t.pc with
  | .start =>
    if p.mgr.isInitialized then t.afterInit p
    else
      let (r, p) := init t.φ p
      (.awaitInit r, p)
  | .awaitInit (.error e) => (.done (.error e), p)
  | .awaitInit (.ok _) => t.afterInit p
  | .awaitRegisterSW (.error e) => t.fail e p
  | .awaitRegisterSW (.ok _) =>
    match registerSWResume t.φ p with
    | (.error e, p) => t.fail e p
    | (.ok _, p) =>
      let (r, p) := getTransport t.φ p
      (.awaitGetTransport r, p)
  | .awaitGetTransport (.error e) => t.fail e p
  | .awaitGetTransport (.ok tr) =>
    if tr ≠ epoxyTransport then
      let (r, p) := setTransport t.φ p
      (.awaitSetTransport r, p)
    else t.toController p
  | .awaitSetTransport (.error e) => t.fail e p
  | .awaitSetTransport (.ok _) => t.toController p
  | .awaitControllerInit (.error e) => t.fail e p
  | .awaitControllerInit (.ok c) =>
    match finishTab t.φ p t.tabId t.url c with
    | (.error e, p) => t.fail e p
    | (.ok f, p) => (.done (.ok f), p)
  | .done r => (.done r, p)

/-- Resume the call `n` times in a row. -/
def Task.run (t : Task) : Nat → Page → Pc × Page
  | 0, p => (t.pc, p)
  | n + 1, p =>
    let (pc, p) := t.step p
    Task.run { t with pc := pc } n p

/-- The call `createTab(tabId, url)` before it has run. -/
def Task.create (φ : Faults) (tabId : TabId) (url : Url) : Task :=
  { tabId := tabId, url := url, φ := φ, pc := .start }

/-- What the event loop does next. -/
inductive Action where
  | resume (i : Nat)       -- resume the `i`-th pending `createTab`
  | close (id : TabId)     -- run `closeTab(id)`

/-- A page and the calls of `createTab` in flight on it. -/
structure Sys where
  page : Page
  tasks : List Task

/-- One turn of the event loop. -/
def Sys.step (s : Sys) : Action → Sys
  | .resume i =>
    match s.tasks[i]? with
    | none => s
    | some t =>
      let (pc, p) := t.step s.page
      { page := p, tasks := s.tasks.set i { t with pc := pc } }
  | .close id => { s with page := closeTab s.page id }

/-- A schedule: the turns of the event loop, in order. -/
def Sys.run (s : Sys) (sched : List Action) : Sys := sched.foldl Sys.step s

/-- Number of `setTransport` requests in a trace. -/
def setTransportCount : List Event → Nat
  | [] => 0
  | .setTransport _ _ _ :: es => setTransportCount es + 1
  | _ :: es => setTransportCount es

/-- The calls `createTab(id, url)` of the list, none of them faulty, each run to
its end before the next one is started. -/
def createTabs (p : Page) : List (TabId × Url) → Page
  | [] => p
  | (id, url) :: rest => createTabs (createTab noFault p id url).2 rest

/-- The task's call has settled. -/
def Pc.isDone : Pc → Bool
  | .done _ => true
  | _ => false

/-! ### Predicates used in the statements about the tab manager -/

/-- An error of the form `thrown c` was raised by the call `c`. -/
def Raised (φ : Faults) (e : JsError) : Prop := ∀ c, e = .thrown c → φ c = true

/-- None of the calls that every successful `createTab` makes has thrown. -/
def NoneFailed (φ : Faults) : Prop :=
  φ .register = false ∧ φ .getTransport = false ∧ φ .newController = false ∧
  φ .controllerInit = false ∧ φ .createFrame = false ∧ φ .go = false

/-- The handle of the frame a call without failing step returns: the second
object allocated once the manager is initialised. -/
def returnedFrame (p : Page) : Handle :=
  if p.mgr.isInitialized = true then p.nextHandle + 1 else p.nextHandle + 2

/-- What the caller of `createTab` is to receive: the error of the first step
that fails, in program order: initialisation (only when the manager is not yet
initialised), the service-worker check and registration, `getTransport`,
`setTransport` (only when the page is not yet configured), controller
construction and `init`, frame construction, the navigation; and the new frame
when no step fails. -/
def createTabResult (φ : Faults) (p : Page) : Except JsError Handle :=
  if p.mgr.isInitialized = false ∧ φ .init = true then .error (.thrown .init)
  else if p.swSupported = false then .error .swUnsupported
  else if φ .register = true then .error (.thrown .register)
  else if p.mgr.isInitialized = true ∧ p.mgr.bareMuxConnection = none then .error .typeError
  else if φ .getTransport = true then .error (.thrown .getTransport)
  else if p.transport ≠ epoxyTransport ∧ φ .setTransport = true then
    .error (.thrown .setTransport)
  else if p.mgr.isInitialized = true ∧ p.mgr.controllerLoaded = false then .error .typeError
  else if φ .newController = true then .error (.thrown .newController)
  else if φ .controllerInit = true then .error (.thrown .controllerInit)
  else if φ .createFrame = true then .error (.thrown .createFrame)
  else if φ .go = true then .error (.thrown .go)
  else .ok (returnedFrame p)

/-! ### Closing a tab while its creation is in flight -/

/-- An upper bound on the resumptions a call still needs. -/
def Pc.rank : Pc → Nat
  | .start => 6
  | .awaitInit _ => 5
  | .awaitRegisterSW _ => 4
  | .awaitGetTransport _ => 3
  | .awaitSetTransport _ => 2
  | .awaitControllerInit _ => 1
  | .done _ => 0

/-- The page and the pending call after `createTab("tab-1", ...)` has run up to
its first `await` on `readyPage`. -/
def pendingPage : Page := (Task.step (Task.create noFault "tab-1" "https://a.example/") readyPage).2

/-- The call `createTab("tab-1", ...)` suspended at its first `await`. -/
def pendingTask : Task :=
  { Task.create noFault "tab-1" "https://a.example/" with
    pc := (Task.step (Task.create noFault "tab-1" "https://a.example/") readyPage).1 }

/-- Calls that have not yet passed the transport check may still configure. -/
def Pc.budget : Pc → Nat
  | .start => 1
  | .awaitInit _ => 1
  | .awaitRegisterSW _ => 1
  | .awaitGetTransport _ => 1
  | _ => 0

/-- The budget left to the pending calls. -/
def budgetSum (ts : List Task) : Nat := (ts.map (fun t => t.pc.budget)).sum

/-- The environment lets a call through to the transport step: service workers
exist, and an initialised manager holds its bare-mux connection. -/
def Healthy (p : Page) : Prop :=
  p.swSupported = true ∧
  (p.mgr.isInitialized = true → ∃ conn, p.mgr.bareMuxConnection = some conn)

/-- A fault-free call that has not yet posted `setTransport`, and whose
transport check, if already answered, saw another transport. -/
def Task.Pre (p : Page) (t : Task) : Prop :=
  t.φ = noFault ∧
  match t.pc with
  | .start => True
  | .awaitInit r => r = .ok () ∧ p.mgr.isInitialized = true
  | .awaitRegisterSW r => r = .ok () ∧ p.mgr.isInitialized = true
  | .awaitGetTransport r =>
    ∃ tr, r = .ok tr ∧ tr ≠ epoxyTransport ∧ p.mgr.isInitialized = true
  | _ => False

/-- Either `setTransport` has been posted since the count was `c0`, or the page
is still unconfigured and every call is still before its `setTransport`. -/
def Unconfigured (c0 : Nat) (s : Sys) : Prop :=
  c0 + 1 ≤ setTransportCount s.page.trace ∨
  (Healthy s.page ∧ s.page.transport ≠ epoxyTransport ∧ ∀ t ∈ s.tasks, t.Pre s.page)

/-! ### The rest of a suspended `createTab`, written without suspension -/

/-- The rest of a call at `await scramjet.init()`. -/
def restControllerInit (φ : Faults) (id : TabId) (url : Url) (r : Except JsError Handle)
    (p : Page) : Outcome Handle :=
  match r with
  | .error e => createTabCatch id e p
  | .ok c =>
    match finishTab φ p id url c with
    | (.error e, q) => createTabCatch id e q
    | (.ok f, q) => (.ok f, q)

/-- The rest of a call about to construct its controller. -/
def restToController (φ : Faults) (id : TabId) (url : Url) (p : Page) : Outcome Handle :=
  restControllerInit φ id url (newController φ p).1 (newController φ p).2

/-- The rest of a call at `await ...setTransport(...)`. -/
def restSetTransport (φ : Faults) (id : TabId) (url : Url) (r : Except JsError Unit)
    (p : Page) : Outcome Handle :=
  match r with
  | .error e => createTabCatch id e p
  | .ok _ => restToController φ id url p

/-- The rest of a call at `await ...getTransport()`. -/
def restGetTransport (φ : Faults) (id : TabId) (url : Url) (r : Except JsError String)
    (p : Page) : Outcome Handle :=
  match r with
  | .error e => createTabCatch id e p
  | .ok tr =>
    if tr ≠ epoxyTransport then
      restSetTransport φ id url (setTransport φ p).1 (setTransport φ p).2
    else restToController φ id url p

/-- The rest of a call at `await this.registerSW()`. -/
def restRegisterSW (φ : Faults) (id : TabId) (url : Url) (r : Except JsError Unit)
    (p : Page) : Outcome Handle :=
  match r with
  | .error e => createTabCatch id e p
  | .ok _ =>
    match registerSWResume φ p with
    | (.error e, q) => createTabCatch id e q
    | (.ok _, q) => restGetTransport φ id url (getTransport φ q).1 (getTransport φ q).2

/-- The rest of a call from line 39 on. -/
def restAfterInit (φ : Faults) (id : TabId) (url : Url) (p : Page) : Outcome Handle :=
  restRegisterSW φ id url
    (registerSWCall (p.emit (.log ("Creating tab " ++ id ++ " for URL: " ++ url)))).1
    (registerSWCall (p.emit (.log ("Creating tab " ++ id ++ " for URL: " ++ url)))).2

/-- The rest of a call at `await this.init()`. -/
def restInit (φ : Faults) (id : TabId) (url : Url) (r : Except JsError Unit)
    (p : Page) : Outcome Handle :=
  match r with
  | .error e => (.error e, p)
  | .ok _ => restAfterInit φ id url p

/-- The whole call. -/
def restStart (φ : Faults) (id : TabId) (url : Url) (p : Page) : Outcome Handle :=
  if p.mgr.isInitialized then restAfterInit φ id url p
  else restInit φ id url (init φ p).1 (init φ p).2

/-! ## `search` (public/browser-index.js, lines 162-174) -/

/-- The parts of a parsed URL that `search` reads, and the two it does not. -/
structure URLRecord where
  origin : String
  pathname : String
  search : String
  hash : String
deriving DecidableEq, Repr

/-- The URL parser of the browser: `parseURL s` is `new URL(s)`, `none` when
the constructor throws. -/
structure Platform where
  parseURL : String → Option URLRecord

/-- The characters `encodeURIComponent` leaves alone: letters, digits and
`- _ . ! ~ * ( )` and the apostrophe. -/
def isUriUnreserved (c : Char) : Bool :=
  let n := c.toNat
  (65 ≤ n && n ≤ 90) || (97 ≤ n && n ≤ 122) || (48 ≤ n && n ≤ 57) ||
  n = 45 || n = 95 || n = 46 || n = 33 || n = 126 || n = 42 || n = 39 || n = 40 || n = 41

/-- An upper-case hexadecimal digit. -/
def hexDigit (n : Nat) : Char :=
  if n < 10 then Char.ofNat (48 + n) else Char.ofNat (55 + n)

/-- The UTF-8 encoding of a character. -/
def utf8Bytes (c : Char) : List Nat :=
  let n := c.toNat
  if n < 0x80 then [n]
  else if n < 0x800 then [0xC0 + n / 64, 0x80 + n % 64]
  else if n < 0x10000 then [0xE0 + n / 4096, 0x80 + n / 64 % 64, 0x80 + n % 64]
  else [0xF0 + n / 262144, 0x80 + n / 4096 % 64, 0x80 + n / 64 % 64, 0x80 + n % 64]

/-- `encodeURIComponent` on one character. -/
def encodeChar (c : Char) : List Char :=
  if isUriUnreserved c then [c]
  else (utf8Bytes c).flatMap (fun b => ['%', hexDigit (b / 16), hexDigit (b % 16)])

/-- `encodeURIComponent`. -/
def encodeURIComponent (s : String) : String := ⟨s.data.flatMap encodeChar⟩

/-- Replace the first occurrence of a non-empty pattern. -/
def replaceFirstChars : List Char → List Char → List Char → List Char
  | [], _, _ => []
  | c :: cs, pat, rep =>
    if pat.isPrefixOf (c :: cs) then rep ++ (c :: cs).drop pat.length
    else c :: replaceFirstChars cs pat rep

/-- `String.prototype.replace` with a string pattern and a replacement free of
`$` (the percent-encoded query never contains one). -/
def replaceFirst (s pat rep : String) : String := ⟨replaceFirstChars s.data pat.data rep.data⟩

/-- `search(query, searchEngine)`; `none` when `new URL(searchEngine)` throws. -/
def search (P : Platform) (query searchEngine : String) : Option String :=
  if query = "" then some ""
  else
    match P.parseURL query with
    | some _ => some query
    | none =>
      match P.parseURL searchEngine with
      | none => none
      | some url => some (url.origin ++ replaceFirst url.pathname "%s" (encodeURIComponent query))

/-- What the specification says `search` returns for a query that is not a URL:
the template with `%s` replaced by the percent-encoded query. -/
def searchSpec (query searchEngine : String) : String :=
  replaceFirst searchEngine "%s" (encodeURIComponent query)

/-- A small URL parser: `http://` or `https://`, a non-empty host, then path,
query and fragment; a string without such a start is rejected. It agrees with
`new URL` on strings that the real parser leaves unchanged, such as
"https://www.google.com/search?q=%s", and on strings without a scheme, such as
"example". -/
def simpleParseURL (s : String) : Option URLRecord :=
  let cs := s.data
  let scheme : Option (List Char) :=
    if "https://".data.isPrefixOf cs then some "https://".data
    else if "http://".data.isPrefixOf cs then some "http://".data
    else none
  match scheme with
  | none => none
  | some sch =>
    let rest := cs.drop sch.length
    let host := rest.takeWhile (fun c => c != '/' && c != '?' && c != '#')
    let rest := rest.dropWhile (fun c => c != '/' && c != '?' && c != '#')
    let path := rest.takeWhile (fun c => c != '?' && c != '#')
    let rest := rest.dropWhile (fun c => c != '?' && c != '#')
    let query := rest.takeWhile (fun c => c != '#')
    let frag := rest.dropWhile (fun c => c != '#')
    if host.isEmpty then none
    else some
      { origin := ⟨sch ++ host⟩,
        pathname := if path.isEmpty then "/" else ⟨path⟩,
        search := if query.length ≤ 1 then "" else ⟨query⟩,
        hash := if frag.length ≤ 1 then "" else ⟨frag⟩ }

/-- A platform with the small parser. -/
def simplePlatform : Platform := { parseURL := simpleParseURL }

/-! ## The gateway (src/index.js) -/

/-- `String.prototype.startsWith`. -/
def startsWith (s pat : String) : Bool := pat.data.isPrefixOf s.data

/-- Some suffix of the characters begins with the pattern. -/
def includesChars : List Char → List Char → Bool
  | [], pat => pat.isEmpty
  | c :: cs, pat => pat.isPrefixOf (c :: cs) || includesChars cs pat

/-- `String.prototype.includes`. -/
def includes (s pat : String) : Bool := includesChars s.data pat.data

/-- The `data` handler of `pythonWisp.stdout` (lines 20-26): the lines it writes
to the console for one chunk. The only statement after the early return is
commented out. -/
def onStdoutData (data : String) : List String :=
  let msg := data
  if !includes msg "INFO" then []
  else []

/-- The `data` handler of `pythonWisp.stderr` (lines 28-30), without the
trimming of the chunk. -/
def onStderrData (data : String) : List String :=
  ["[Python Wisp ERROR] " ++ data]

abbrev Socket := Nat

abbrev Bytes := List Nat

/-- An incoming request, as far as the upgrade handler looks at it. -/
structure Request where
  url : String
deriving DecidableEq, Repr

/-- What the upgrade handler does to its arguments. -/
inductive UpgradeEvent where
  | routeRequest (req : Request) (socket : Socket) (head : Bytes)
  | socketEnd (socket : Socket) (data : Option Bytes)
  | consoleError (tag : String)
deriving DecidableEq, Repr

/-- The `upgrade` handler of the server factory (lines 57-68). `routeThrows`
says whether `wisp.routeRequest` throws; `socket.end()` never throws. -/
def onUpgrade (routeThrows : Bool) (req : Request) (socket : Socket) (head : Bytes) :
    List UpgradeEvent :=
  if startsWith req.url "/wisp/" then
    if routeThrows then
      [.routeRequest req socket head, .consoleError "[Wisp Upgrade Error]",
        .socketEnd socket none]
    else [.routeRequest req socket head]
  else [.socketEnd socket none]

/-- The effects of the gateway process on its surroundings. -/
inductive ProcEvent where
  | log (msg : String)
  | childKill         -- `pythonWisp.kill()`
  | serverClose       -- `fastify.close()`
  | exit (code : Nat) -- `process.exit(code)`
deriving DecidableEq, Repr

/-- The gateway process as `shutdown` sees it. -/
structure Gateway where
  childKilled : Bool
  closing : Bool
  exited : Option Nat
  events : List ProcEvent
deriving DecidableEq, Repr

/-- One statement of `shutdown`. -/
inductive Stmt where
  | log (msg : String)
  | killChild
  | closeServer
  | exit (code : Nat)
deriving DecidableEq, Repr

/-- Execute one statement. Nothing runs once the process has exited. -/
def Stmt.exec (g : Gateway) : Stmt → Gateway
  | .log m => if g.exited.isSome then g else { g with events := g.events ++ [.log m] }
  | .killChild =>
    if g.exited.isSome then g
    else { g with childKilled := true, events := g.events ++ [.childKill] }
  | .closeServer =>
    if g.exited.isSome then g
    else { g with closing := true, events := g.events ++ [.serverClose] }
  | .exit c =>
    if g.exited.isSome then g
    else { g with exited := some c, events := g.events ++ [.exit c] }

/-- The body of `shutdown` (lines 84-87). -/
def shutdownBody : List Stmt :=
  [.log "Shutting down DoxyEdu Web Proxy...", .killChild, .closeServer, .exit 0]

/-- Execute statements in order. -/
def execAll (g : Gateway) (body : List Stmt) : Gateway := body.foldl Stmt.exec g

/-- `shutdown()`. -/
def shutdown (g : Gateway) : Gateway := execAll g shutdownBody

/-- The signals a handler is registered for (lines 90-91). -/
inductive Signal where
  | SIGINT | SIGTERM
deriving DecidableEq, Repr

/-- `process.on(signal, shutdown)`. -/
def onSignal (g : Gateway) : Signal → Gateway
  | .SIGINT => shutdown g
  | .SIGTERM => shutdown g

/-- The gateway while serving. -/
def serving : Gateway := { childKilled := false, closing := false, exited := none, events := [] }

/-! ### The listening port (lines 94-95) -/

/-- A JavaScript Number, as far as `parseInt` can produce one: `NaN`, an
infinity, or an integer-valued finite number (`-0` is not told apart from `0`). -/
inductive JsNumber where
  | nan
  | inf (negative : Bool)
  | finite (v : Int)
deriving DecidableEq, Repr

/-- `isNaN`. -/
def JsNumber.isNaN : JsNumber → Bool
  | .nan => true
  | _ => false

/-- White space and line terminators, which `parseInt` skips at the start. -/
def isStrWhiteSpace (c : Char) : Bool :=
  let n := c.toNat
  n = 0x09 || n = 0x0A || n = 0x0B || n = 0x0C || n = 0x0D || n = 0x20 || n = 0xA0 ||
  n = 0x1680 || (0x2000 ≤ n && n ≤ 0x200A) || n = 0x2028 || n = 0x2029 || n = 0x202F ||
  n = 0x205F || n = 0x3000 || n = 0xFEFF

/-- The value of a character as a digit in the given radix (10 or 16). -/
def digitValue (radix : Nat) (c : Char) : Option Nat :=
  let n := c.toNat
  if 48 ≤ n ∧ n ≤ 57 then some (n - 48)
  else if radix = 16 ∧ 97 ≤ n ∧ n ≤ 102 then some (n - 87)
  else if radix = 16 ∧ 65 ≤ n ∧ n ≤ 70 then some (n - 55)
  else none

/-- The longest leading run of digits, as values. -/
def leadingDigits (radix : Nat) : List Char → List Nat
  | [] => []
  | c :: cs =>
    match digitValue radix c with
    | some d => d :: leadingDigits radix cs
    | none => []

/-- The integer written by a list of digits, most significant first. -/
def digitsValue (radix : Nat) (ds : List Nat) : Nat := ds.foldl (fun acc d => acc * radix + d) 0

/-- The Number nearest to a natural number (ties to even), `none` for
`Infinity`. Below `2 ^ 53` every natural number is a Number. -/
def roundToDouble (n : Nat) : Option Nat :=
  if n < 2 ^ 53 then some n
  else
    let e := Nat.log2 n - 52
    let q := n / 2 ^ e
    let r := n % 2 ^ e
    let q := if 2 ^ (e - 1) < r ∨ (r = 2 ^ (e - 1) ∧ q % 2 = 1) then q + 1 else q
    if 2 ^ 1024 ≤ q * 2 ^ e then none else some (q * 2 ^ e)

/-- `parseInt(string)` with no radix argument, on the characters of the string:
skip white space, take a sign, take a `0x` or `0X` mark (radix 16, otherwise
10), read the longest run of digits, `NaN` if it is empty. The value of the run
is taken exactly before rounding, also beyond the twenty digits after which
the standard lets an implementation approximate. -/
def parseIntChars (s : List Char) : JsNumber :=
  let s := s.dropWhile isStrWhiteSpace
  let negative : Bool := s.head? = some '-'
  let s := if s.head? = some '-' ∨ s.head? = some '+' then s.tail else s
  let hex : Bool := s.take 2 = ['0', 'x'] ∨ s.take 2 = ['0', 'X']
  let radix := if hex then 16 else 10
  let s := if hex then s.drop 2 else s
  let z := leadingDigits radix s
  if z = [] then .nan
  else
    match roundToDouble (digitsValue radix z) with
    | none => .inf negative
    | some v => .finite (if negative then -(v : Int) else v)

/-- `parseInt(string)`. -/
def parseInt (s : String) : JsNumber := parseIntChars s.data

/-- Lines 94-95: the listening port, from the value of the environment variable
`PORT` (`none` when it is not set). -/
def port (PORT : Option String) : JsNumber :=
  let arg := match PORT with
    | none => ""
    | some v => if v = "" then "" else v
  let port := parseInt arg
  if port.isNaN then .finite 8080 else port

/-- A decimal digit character. -/
def isDecDigit (c : Char) : Prop := 48 ≤ c.toNat ∧ c.toNat ≤ 57

/-- A string that is entirely the decimal representation of an integer: an
optional minus sign and one or more decimal digits. -/
def isDecimalInteger (s : String) : Bool :=
  let ds := if s.data.head? = some '-' then s.data.tail else s.data
  !ds.isEmpty && ds.all (fun c => decide (48 ≤ c.toNat ∧ c.toNat ≤ 57))

/-! ## Theorems: the tab manager -/

theorem tabsGet_delete_self (t : List (TabId × Session)) (id : TabId) :
    tabsGet (tabsDelete t id) id = none := by
  induction t with
  | nil => rfl
  | cons e rest ih =>
    obtain ⟨k, v⟩ := e
    by_cases h : k = id <;> simp [tabsDelete, tabsGet, h, ih]

theorem tabsGet_delete_other (t : List (TabId × Session)) (id j : TabId) (hj : j ≠ id) :
    tabsGet (tabsDelete t id) j = tabsGet t j := by
  induction t with
  | nil => rfl
  | cons e rest ih =>
    obtain ⟨k, v⟩ := e
    have hij : ¬ id = j := fun h => hj h.symm
    by_cases h : k = id
    · subst h; simp [tabsDelete, tabsGet, hij, ih]
    · by_cases h2 : k = j
      · subst h2; simp [tabsDelete, tabsGet, h]
      · simp [tabsDelete, tabsGet, h, h2, ih]

theorem tabIds_delete (t : List (TabId × Session)) (id : TabId) :
    tabIds (tabsDelete t id) = (tabIds t).filter (fun j => decide (j ≠ id)) := by
  induction t with
  | nil => rfl
  | cons e rest ih =>
    obtain ⟨k, v⟩ := e
    unfold tabIds at ih ⊢
    by_cases h : k = id <;> simp [tabsDelete, h, ih]

theorem tabsGet_ne_none_of_mem (t : List (TabId × Session)) (id : TabId)
    (h : id ∈ tabIds t) : tabsGet t id ≠ none := by
  induction t with
  | nil => simp [tabIds] at h
  | cons e rest ih =>
    obtain ⟨k, v⟩ := e
    by_cases hk : k = id
    · simp [tabsGet, hk]
    · have : id ∈ tabIds rest := by
        simp only [tabIds, List.map_cons, List.mem_cons] at h ⊢
        rcases h with h | h
        · exact absurd h.symm hk
        · exact h
      simpa [tabsGet, hk] using ih this

theorem tabsGet_set_self (t : List (TabId × Session)) (id : TabId) (s : Session) :
    tabsGet (tabsSet t id s) id = some s := by
  induction t with
  | nil => simp [tabsSet, tabsGet]
  | cons e rest ih =>
    obtain ⟨k, v⟩ := e
    by_cases h : k = id <;> simp [tabsSet, tabsGet, h, ih]

theorem tabsGet_set_other (t : List (TabId × Session)) (id j : TabId) (s : Session)
    (hj : j ≠ id) : tabsGet (tabsSet t id s) j = tabsGet t j := by
  induction t with
  | nil => simp [tabsSet, tabsGet]; intro h; exact absurd h.symm hj
  | cons e rest ih =>
    obtain ⟨k, v⟩ := e
    have hij : ¬ id = j := fun h => hj h.symm
    by_cases h : k = id
    · subst h; simp [tabsSet, tabsGet, hij, ih]
    · by_cases h2 : k = j
      · subst h2; simp [tabsSet, tabsGet, h]
      · simp [tabsSet, tabsGet, h, h2, ih]

theorem tabsGet_setUrl_self (t : List (TabId × Session)) (id : TabId) (u : Url) (s : Session)
    (h : tabsGet t id = some s) :
    tabsGet (tabsSetUrl t id u) id = some { s with url := u } := by
  induction t with
  | nil => simp [tabsGet] at h
  | cons e rest ih =>
    obtain ⟨k, v⟩ := e
    by_cases hk : k = id
    · simp [tabsGet, hk] at h
      simp [tabsSetUrl, tabsGet, hk, h]
    · simp [tabsGet, hk] at h
      simp [tabsSetUrl, tabsGet, hk, ih h]

theorem tabsGet_setUrl_other (t : List (TabId × Session)) (id j : TabId) (u : Url)
    (hj : j ≠ id) : tabsGet (tabsSetUrl t id u) j = tabsGet t j := by
  induction t with
  | nil => rfl
  | cons e rest ih =>
    obtain ⟨k, v⟩ := e
    have hij : ¬ id = j := fun h => hj h.symm
    by_cases h : k = id
    · subst h; simp [tabsSetUrl, tabsGet, hij, ih]
    · by_cases h2 : k = j
      · subst h2; simp [tabsSetUrl, tabsGet, h]
      · simp [tabsSetUrl, tabsGet, h, h2, ih]

theorem tabIds_setUrl (t : List (TabId × Session)) (id : TabId) (u : Url) :
    tabIds (tabsSetUrl t id u) = tabIds t := by
  induction t with
  | nil => rfl
  | cons e rest ih =>
    obtain ⟨k, v⟩ := e
    unfold tabIds at ih ⊢
    by_cases h : k = id <;> simp [tabsSetUrl, h, ih]

theorem closeTab_of_absent (p : Page) (id : TabId) (h : tabsGet p.mgr.tabs id = none) :
    closeTab p id = p := by
  simp [closeTab, h]

/-- C3. `closeTab(id)` leaves no session under `id`, keeps every other session,
the order of the remaining ids and `activeTabId`, changes nothing at all when
`id` has no session, and a second `closeTab(id)` leaves the state the first one
produced. -/
theorem closeTab_idempotent (p : Page) (id : TabId) :
    tabsGet (closeTab p id).mgr.tabs id = none ∧
    (∀ j, j ≠ id → tabsGet (closeTab p id).mgr.tabs j = tabsGet p.mgr.tabs j) ∧
    tabIds (closeTab p id).mgr.tabs = (tabIds p.mgr.tabs).filter (fun j => decide (j ≠ id)) ∧
    (closeTab p id).mgr.activeTabId = p.mgr.activeTabId ∧
    (tabsGet p.mgr.tabs id = none → closeTab p id = p) ∧
    closeTab (closeTab p id) id = closeTab p id := by
  have key : tabsGet (closeTab p id).mgr.tabs id = none := by
    unfold closeTab
    cases h : tabsGet p.mgr.tabs id with
    | none => simpa using h
    | some s => simp [Page.setTabs, Page.emit, tabsGet_delete_self]
  refine ⟨key, ?_, ?_, ?_, ?_, ?_⟩
  · intro j hj
    unfold closeTab
    cases h : tabsGet p.mgr.tabs id with
    | none => rfl
    | some s => simp [Page.setTabs, Page.emit, tabsGet_delete_other _ _ _ hj]
  · unfold closeTab
    cases h : tabsGet p.mgr.tabs id with
    | none =>
      simp only []
      symm
      rw [List.filter_eq_self]
      intro j hjmem
      have : j ≠ id := by
        rintro rfl
        exact tabsGet_ne_none_of_mem _ _ hjmem h
      simpa using this
    | some s => simp [Page.setTabs, Page.emit, tabIds_delete]
  · unfold closeTab
    cases h : tabsGet p.mgr.tabs id <;> simp [Page.setTabs, Page.emit]
  · exact closeTab_of_absent p id
  · exact closeTab_of_absent _ id key

/-- Witness for C3 on a page holding two tabs. -/
theorem closeTab_idempotent_witness :
    closeTab (closeTab (readyPage.setTabs [("tab-1", ⟨2, 1, some 0, "https://a.example/"⟩),
      ("tab-2", ⟨4, 3, some 0, "https://b.example/"⟩)]) "tab-1") "tab-1"
    = closeTab (readyPage.setTabs [("tab-1", ⟨2, 1, some 0, "https://a.example/"⟩),
      ("tab-2", ⟨4, 3, some 0, "https://b.example/"⟩)]) "tab-1" :=
  (closeTab_idempotent _ "tab-1").2.2.2.2.2

/-- C2. On a tab that has a session, `navigateTab(id, url)` keeps the ids of the
map, replaces only the `url` field of the session of `id` (same frame,
controller and connection), keeps every other session, allocates no object,
and issues exactly the log line and one `go(url)` on the existing frame. -/
theorem navigateTab_existing_reuses_frame (φ : Faults) (p : Page) (id : TabId) (url : Url)
    (s : Session) (h : tabsGet p.mgr.tabs id = some s) :
    tabIds (navigateTab φ p id url).2.mgr.tabs = tabIds p.mgr.tabs ∧
    tabsGet (navigateTab φ p id url).2.mgr.tabs id = some { s with url := url } ∧
    (∀ j, j ≠ id → tabsGet (navigateTab φ p id url).2.mgr.tabs j = tabsGet p.mgr.tabs j) ∧
    (navigateTab φ p id url).2.nextHandle = p.nextHandle ∧
    (navigateTab φ p id url).2.trace = p.trace ++
      [.log ("Navigating tab " ++ id ++ " to: " ++ url), .frameGo s.frame url] ∧
    (navigateTab φ p id url).1 = (if φ .go then .error (.thrown .go) else .ok none) := by
  have hp : (navigateTab φ p id url).2 =
      ((p.emit (.log ("Navigating tab " ++ id ++ " to: " ++ url))).setTabs
        (tabsSetUrl p.mgr.tabs id url)).emit (.frameGo s.frame url) := by
    unfold navigateTab
    rw [h]
    by_cases hg : φ .go <;> simp [hg, Page.emit, Page.setTabs]
  refine ⟨?_, ?_, ?_, ?_, ?_, ?_⟩
  · rw [hp]; simp [Page.emit, Page.setTabs, tabIds_setUrl]
  · rw [hp]; simp [Page.emit, Page.setTabs, tabsGet_setUrl_self _ _ _ _ h]
  · intro j hj
    rw [hp]; simp [Page.emit, Page.setTabs, tabsGet_setUrl_other _ _ _ _ hj]
  · rw [hp]; simp [Page.emit, Page.setTabs]
  · rw [hp]; simp [Page.emit, Page.setTabs]
  · unfold navigateTab
    rw [h]
    by_cases hg : φ .go <;> simp [hg]

/-- Witness for C2: navigating the first of two tabs. -/
theorem navigateTab_existing_reuses_frame_witness :
    (navigateTab noFault (readyPage.setTabs [("tab-1", ⟨2, 1, some 0, "https://a.example/"⟩),
      ("tab-2", ⟨4, 3, some 0, "https://b.example/"⟩)]) "tab-1" "https://c.example/").2.trace
    = [.log ("Navigating tab " ++ "tab-1" ++ " to: " ++ "https://c.example/"),
       .frameGo 2 "https://c.example/"] :=
  (navigateTab_existing_reuses_frame noFault
    (readyPage.setTabs [("tab-1", ⟨2, 1, some 0, "https://a.example/"⟩),
      ("tab-2", ⟨4, 3, some 0, "https://b.example/"⟩)]) "tab-1" "https://c.example/"
    ⟨2, 1, some 0, "https://a.example/"⟩ (by decide)).2.2.2.2.1

/-! ### `createTab`: what a failure leaves behind -/

theorem init_tabs (φ : Faults) (p : Page) : (init φ p).2.mgr.tabs = p.mgr.tabs := by
  unfold init
  by_cases h : φ .init <;> simp [h, Page.emit]

theorem registerSW_mgr (φ : Faults) (p : Page) : (registerSW φ p).2.mgr = p.mgr := by
  unfold registerSW registerSWCall registerSWResume
  by_cases h1 : p.swSupported <;> by_cases h2 : φ .register <;> simp [h1, h2, Page.emit]

theorem getTransport_mgr (φ : Faults) (p : Page) : (getTransport φ p).2.mgr = p.mgr := by
  unfold getTransport
  cases h1 : p.mgr.bareMuxConnection <;> by_cases h2 : φ .getTransport <;>
    simp [h2, Page.emit]

theorem setTransport_mgr (φ : Faults) (p : Page) : (setTransport φ p).2.mgr = p.mgr := by
  unfold setTransport
  cases h1 : p.mgr.bareMuxConnection <;> by_cases h2 : φ .setTransport <;>
    simp [h2, Page.emit]

theorem newController_mgr (φ : Faults) (p : Page) : (newController φ p).2.mgr = p.mgr := by
  unfold newController
  by_cases h1 : p.mgr.controllerLoaded <;> by_cases h2 : φ .newController <;>
    by_cases h3 : φ .controllerInit <;> simp [h1, h2, h3, Page.emit]

theorem registerSW_error (φ : Faults) (p : Page) (e : JsError)
    (h : (registerSW φ p).1 = .error e) : Raised φ e ∧ e ≠ .thrown .go := by
  unfold registerSW registerSWCall registerSWResume at h
  by_cases h1 : p.swSupported <;> by_cases h2 : φ .register <;>
    simp [h1, h2] at h <;> subst h <;> simp [Raised, h2]

theorem getTransport_error (φ : Faults) (p : Page) (e : JsError)
    (h : (getTransport φ p).1 = .error e) : Raised φ e ∧ e ≠ .thrown .go := by
  unfold getTransport at h
  cases h1 : p.mgr.bareMuxConnection <;> by_cases h2 : φ .getTransport <;>
    simp [h1, h2] at h <;> subst h <;> simp [Raised, h2]

theorem setTransport_error (φ : Faults) (p : Page) (e : JsError)
    (h : (setTransport φ p).1 = .error e) : Raised φ e ∧ e ≠ .thrown .go := by
  unfold setTransport at h
  cases h1 : p.mgr.bareMuxConnection <;> by_cases h2 : φ .setTransport <;>
    simp [h1, h2] at h <;> subst h <;> simp [Raised, h2]

theorem newController_error (φ : Faults) (p : Page) (e : JsError)
    (h : (newController φ p).1 = .error e) : Raised φ e ∧ e ≠ .thrown .go := by
  unfold newController at h
  by_cases h1 : p.mgr.controllerLoaded <;> by_cases h2 : φ .newController <;>
    by_cases h3 : φ .controllerInit <;> simp [h1, h2, h3] at h <;> subst h <;>
    simp [Raised, h2, h3]

theorem finishTab_error (φ : Faults) (p : Page) (id : TabId) (url : Url) (c : Handle)
    (e : JsError) (h : (finishTab φ p id url c).1 = .error e) :
    Raised φ e ∧
    (e ≠ .thrown .go → (finishTab φ p id url c).2.mgr = p.mgr) ∧
    (e = .thrown .go → (finishTab φ p id url c).2.mgr.tabs =
      tabsSet p.mgr.tabs id ⟨p.nextHandle, c, p.mgr.bareMuxConnection, url⟩) := by
  unfold finishTab at h ⊢
  by_cases h1 : φ .createFrame <;> by_cases h2 : φ .go <;>
    simp [h1, h2] at h ⊢ <;> subst h <;> simp [Raised, h1, h2, Page.emit, Page.setTabs]

theorem finishTab_ok (φ : Faults) (p : Page) (id : TabId) (url : Url) (c f : Handle)
    (h : (finishTab φ p id url c).1 = .ok f) :
    φ .createFrame = false ∧ φ .go = false ∧ f = p.nextHandle ∧
    (finishTab φ p id url c).2.mgr.tabs =
      tabsSet p.mgr.tabs id ⟨f, c, p.mgr.bareMuxConnection, url⟩ := by
  unfold finishTab at h ⊢
  by_cases h1 : φ .createFrame <;> by_cases h2 : φ .go <;> simp [h1, h2] at h ⊢
  subst h
  simp [Page.emit, Page.setTabs]

theorem createTabTry_error (φ : Faults) (p : Page) (id : TabId) (url : Url) (e : JsError)
    (h : (createTabTry φ p id url).1 = .error e) :
    Raised φ e ∧
    (e ≠ .thrown .go → (createTabTry φ p id url).2.mgr = p.mgr) ∧
    (e = .thrown .go → ∃ f c, (createTabTry φ p id url).2.mgr.tabs =
      tabsSet p.mgr.tabs id ⟨f, c, p.mgr.bareMuxConnection, url⟩) := by
  unfold createTabTry at h ⊢
  have m1 := registerSW_mgr φ p
  rcases h1 : registerSW φ p with ⟨e1 | u1, p1⟩
  · rw [h1] at m1
    simp only [h1] at h ⊢
    have := registerSW_error φ p e1 (by rw [h1])
    cases h
    exact ⟨this.1, fun _ => m1, fun hg => absurd hg this.2⟩
  · rw [h1] at m1
    simp only [h1] at h ⊢
    simp only at m1
    have m2 := getTransport_mgr φ p1
    rcases h2 : getTransport φ p1 with ⟨e2 | t, p2⟩
    · rw [h2] at m2
      simp only [h2] at h ⊢
      have := getTransport_error φ p1 e2 (by rw [h2])
      cases h
      exact ⟨this.1, fun _ => m2.trans m1, fun hg => absurd hg this.2⟩
    · rw [h2] at m2
      simp only [h2] at h ⊢
      simp only at m2
      have m3 : (if t ≠ epoxyTransport then setTransport φ p2 else (.ok (), p2)).2.mgr = p2.mgr := by
        by_cases ht : t ≠ epoxyTransport
        · rw [if_pos ht]; exact setTransport_mgr φ p2
        · rw [if_neg ht]
      have e3 : ∀ e3, (if t ≠ epoxyTransport then setTransport φ p2 else (.ok (), p2)).1 = .error e3 →
          Raised φ e3 ∧ e3 ≠ .thrown .go := by
        intro e3
        by_cases ht : t ≠ epoxyTransport
        · rw [if_pos ht]; exact setTransport_error φ p2 e3
        · rw [if_neg ht]; intro hh; cases hh
      rcases h3 : (if t ≠ epoxyTransport then setTransport φ p2 else (.ok (), p2)) with ⟨e3' | u3, p3⟩
      · rw [h3] at m3
        simp only [h3] at h ⊢
        have := e3 e3' (by rw [h3])
        cases h
        exact ⟨this.1, fun _ => m3.trans (m2.trans m1), fun hg => absurd hg this.2⟩
      · rw [h3] at m3
        simp only [h3] at h ⊢
        simp only at m3
        have m4 := newController_mgr φ p3
        rcases h4 : newController φ p3 with ⟨e4 | c, p4⟩
        · rw [h4] at m4
          simp only [h4] at h ⊢
          have := newController_error φ p3 e4 (by rw [h4])
          cases h
          exact ⟨this.1, fun _ => m4.trans (m3.trans (m2.trans m1)),
            fun hg => absurd hg this.2⟩
        · rw [h4] at m4
          simp only [h4] at h ⊢
          simp only at m4
          have hm : p4.mgr = p.mgr := m4.trans (m3.trans (m2.trans m1))
          have := finishTab_error φ p4 id url c e h
          refine ⟨this.1, fun hne => (this.2.1 hne).trans hm, fun hg => ?_⟩
          exact ⟨p4.nextHandle, c, by rw [this.2.2 hg, hm]⟩

theorem registerSW_ok (φ : Faults) (p : Page) (u : Unit)
    (h : (registerSW φ p).1 = .ok u) : φ .register = false := by
  unfold registerSW registerSWCall registerSWResume at h
  by_cases h1 : p.swSupported <;> by_cases h2 : φ .register <;> simp [h1, h2] at h ⊢

theorem getTransport_ok (φ : Faults) (p : Page) (t : String)
    (h : (getTransport φ p).1 = .ok t) : φ .getTransport = false := by
  unfold getTransport at h
  cases h1 : p.mgr.bareMuxConnection <;> by_cases h2 : φ .getTransport <;>
    simp [h1, h2] at h ⊢

theorem newController_ok (φ : Faults) (p : Page) (c : Handle)
    (h : (newController φ p).1 = .ok c) :
    φ .newController = false ∧ φ .controllerInit = false := by
  unfold newController at h
  by_cases h1 : p.mgr.controllerLoaded <;> by_cases h2 : φ .newController <;>
    by_cases h3 : φ .controllerInit <;> simp [h1, h2, h3] at h ⊢

theorem createTabTry_ok (φ : Faults) (p : Page) (id : TabId) (url : Url) (f : Handle)
    (h : (createTabTry φ p id url).1 = .ok f) :
    NoneFailed φ ∧ ∃ c, (createTabTry φ p id url).2.mgr.tabs =
      tabsSet p.mgr.tabs id ⟨f, c, p.mgr.bareMuxConnection, url⟩ := by
  unfold createTabTry at h ⊢
  have m1 := registerSW_mgr φ p
  rcases h1 : registerSW φ p with ⟨e1 | u1, p1⟩
  · simp [h1] at h
  · rw [h1] at m1
    simp only [h1] at h ⊢
    simp only at m1
    have k1 := registerSW_ok φ p u1 (by rw [h1])
    have m2 := getTransport_mgr φ p1
    rcases h2 : getTransport φ p1 with ⟨e2 | t, p2⟩
    · simp [h2] at h
    · rw [h2] at m2
      simp only [h2] at h ⊢
      simp only at m2
      have k2 := getTransport_ok φ p1 t (by rw [h2])
      have m3 : (if t ≠ epoxyTransport then setTransport φ p2 else (.ok (), p2)).2.mgr = p2.mgr := by
        by_cases ht : t ≠ epoxyTransport
        · rw [if_pos ht]; exact setTransport_mgr φ p2
        · rw [if_neg ht]
      rcases h3 : (if t ≠ epoxyTransport then setTransport φ p2 else (.ok (), p2)) with ⟨e3 | u3, p3⟩
      · simp [h3] at h
      · rw [h3] at m3
        simp only [h3] at h ⊢
        simp only at m3
        have m4 := newController_mgr φ p3
        rcases h4 : newController φ p3 with ⟨e4 | c, p4⟩
        · simp [h4] at h
        · rw [h4] at m4
          simp only [h4] at h ⊢
          simp only at m4
          have k4 := newController_ok φ p3 c (by rw [h4])
          have hm : p4.mgr = p.mgr := m4.trans (m3.trans (m2.trans m1))
          have k5 := finishTab_ok φ p4 id url c f h
          exact ⟨⟨k1, k2, k4.1, k4.2, k5.1, k5.2.1⟩, c, by rw [k5.2.2.2, hm]⟩

theorem createTabTry_result (φ : Faults) (p : Page) (id : TabId) (url : Url) (conn : Handle)
    (hc : p.mgr.bareMuxConnection = some conn) (hsw : p.swSupported = true)
    (hr : φ .register = false) (hg : φ .getTransport = false)
    (hs : p.transport ≠ epoxyTransport → φ .setTransport = false) :
    (createTabTry φ p id url).1 =
      if p.mgr.controllerLoaded = false then .error .typeError
      else if φ .newController = true then .error (.thrown .newController)
      else if φ .controllerInit = true then .error (.thrown .controllerInit)
      else if φ .createFrame = true then .error (.thrown .createFrame)
      else if φ .go = true then .error (.thrown .go)
      else .ok (p.nextHandle + 1) := by
  by_cases hT : p.transport = epoxyTransport
  · by_cases hL : p.mgr.controllerLoaded = true <;> by_cases h1 : φ .newController = true <;>
      by_cases h2 : φ .controllerInit = true <;> by_cases h3 : φ .createFrame = true <;>
      by_cases h4 : φ .go = true <;>
      simp [createTabTry, registerSW, registerSWCall, registerSWResume, getTransport,
        setTransport, newController, finishTab, Page.emit, Page.setTabs, hc, hsw, hr, hg, hT,
        hL, h1, h2, h3, h4]
  · have hs' := hs hT
    by_cases hL : p.mgr.controllerLoaded = true <;> by_cases h1 : φ .newController = true <;>
      by_cases h2 : φ .controllerInit = true <;> by_cases h3 : φ .createFrame = true <;>
      by_cases h4 : φ .go = true <;>
      simp [createTabTry, registerSW, registerSWCall, registerSWResume, getTransport,
        setTransport, newController, finishTab, Page.emit, Page.setTabs, hc, hsw, hr, hg, hT,
        hs', hL, h1, h2, h3, h4]

theorem createTabTry_first (φ : Faults) (p : Page) (id : TabId) (url : Url) :
    (createTabTry φ p id url).1 =
      if p.swSupported = false then .error .swUnsupported
      else if φ .register = true then .error (.thrown .register)
      else if p.mgr.bareMuxConnection = none then .error .typeError
      else if φ .getTransport = true then .error (.thrown .getTransport)
      else if p.transport ≠ epoxyTransport ∧ φ .setTransport = true then
        .error (.thrown .setTransport)
      else if p.mgr.controllerLoaded = false then .error .typeError
      else if φ .newController = true then .error (.thrown .newController)
      else if φ .controllerInit = true then .error (.thrown .controllerInit)
      else if φ .createFrame = true then .error (.thrown .createFrame)
      else if φ .go = true then .error (.thrown .go)
      else .ok (p.nextHandle + 1) := by
  by_cases hsw : p.swSupported = true
  swap
  · simp [createTabTry, registerSW, registerSWCall, hsw]
  by_cases hr : φ .register = true
  · simp [createTabTry, registerSW, registerSWCall, registerSWResume, hsw, hr]
  cases hc : p.mgr.bareMuxConnection with
  | none =>
    simp [createTabTry, registerSW, registerSWCall, registerSWResume, getTransport, Page.emit,
      hsw, hr, hc]
  | some conn =>
    by_cases hg : φ .getTransport = true
    · simp [createTabTry, registerSW, registerSWCall, registerSWResume, getTransport,
        Page.emit, hsw, hr, hc, hg]
    by_cases hs : p.transport ≠ epoxyTransport ∧ φ .setTransport = true
    · simp [createTabTry, registerSW, registerSWCall, registerSWResume, getTransport,
        setTransport, Page.emit, hsw, hr, hc, hg, hs.1, hs.2]
    have hs2 : p.transport ≠ epoxyTransport → φ .setTransport = false := by
      intro h
      by_cases h5 : φ .setTransport = true
      · exact absurd ⟨h, h5⟩ hs
      · simpa using h5
    rw [createTabTry_result φ p id url conn hc hsw (by simpa using hr) (by simpa using hg) hs2]
    simp [hsw, hr, hg, hs]

theorem emit_fields (p : Page) (ev : Event) :
    (p.emit ev).swSupported = p.swSupported ∧
    (p.emit ev).mgr = p.mgr ∧
    (p.emit ev).transport = p.transport ∧
    (p.emit ev).nextHandle = p.nextHandle := ⟨rfl, rfl, rfl, rfl⟩

theorem init_fields (φ : Faults) (p : Page) (h0 : φ .init = false) :
    (init φ p).1 = .ok () ∧
    (init φ p).2.swSupported = p.swSupported ∧
    (init φ p).2.mgr.bareMuxConnection = some p.nextHandle ∧
    (init φ p).2.mgr.controllerLoaded = true ∧
    (init φ p).2.transport = p.transport ∧
    (init φ p).2.nextHandle = p.nextHandle + 1 := by
  simp [init, h0, Page.emit]

/-- The caller of `createTab` receives the error of the first failing step, or
the new frame when no step fails. -/
theorem createTab_eq_result (φ : Faults) (p : Page) (id : TabId) (url : Url) :
    (createTab φ p id url).1 = createTabResult φ p := by
  have hcatch : ∀ q : Page, (match createTabTry φ q id url with
      | (.error e, q2) => createTabCatch id e q2
      | (.ok f, q2) => ((.ok f, q2) : Outcome Handle)).1 = (createTabTry φ q id url).1 := by
    intro q
    rcases createTabTry φ q id url with ⟨e | f, q2⟩ <;> rfl
  by_cases hI : p.mgr.isInitialized = true
  · have : (createTab φ p id url).1 =
        (createTabTry φ (p.emit (.log ("Creating tab " ++ id ++ " for URL: " ++ url))) id url).1 := by
      unfold createTab
      simp only [hI, if_true]
      exact hcatch _
    obtain ⟨f1, f2, f3, f4⟩ := emit_fields p (.log ("Creating tab " ++ id ++ " for URL: " ++ url))
    rw [this, createTabTry_first, f1, f2, f3, f4]
    unfold createTabResult returnedFrame
    clear this f1 f2 f3 f4 hcatch
    rw [hI]
    simp only [true_and, if_true, Bool.true_eq_false, false_and, if_false]
  · by_cases h0 : φ .init = true
    · simp [createTab, init, createTabResult, hI, h0]
    · obtain ⟨i1, i2, i3, i4, i5, i6⟩ := init_fields φ p (by simpa using h0)
      have : (createTab φ p id url).1 =
          (createTabTry φ ((init φ p).2.emit (.log ("Creating tab " ++ id ++ " for URL: " ++ url)))
            id url).1 := by
        unfold createTab
        rcases hinit : init φ p with ⟨r, q⟩
        rw [hinit] at i1
        simp only at i1
        subst i1
        simp only [hI, if_false, Bool.false_eq_true]
        exact hcatch _
      obtain ⟨f1, f2, f3, f4⟩ := emit_fields (init φ p).2
        (.log ("Creating tab " ++ id ++ " for URL: " ++ url))
      rw [this, createTabTry_first, f1, f2, f3, f4, i2, i3, i4, i5, i6]
      unfold createTabResult returnedFrame
      clear this f1 f2 f3 f4 hcatch i1 i2 i3 i4 i5 i6
      have hI2 : p.mgr.isInitialized = false := by simpa using hI
      have h02 : φ .init = false := by simpa using h0
      rw [hI2, h02]
      simp only [Bool.false_eq_true, and_false, false_and, if_false, reduceCtorEq, if_true]

theorem createTabResult_ok (φ : Faults) (p : Page) (f : Handle)
    (h : createTabResult φ p = .ok f) :
    (p.mgr.isInitialized = false → φ .init = false) ∧
    (p.transport ≠ epoxyTransport → φ .setTransport = false) ∧
    f = returnedFrame p := by
  unfold createTabResult at h
  by_cases c0 : p.mgr.isInitialized = false ∧ φ .init = true
  · rw [if_pos c0] at h; cases h
  rw [if_neg c0] at h
  by_cases c1 : p.swSupported = false
  · rw [if_pos c1] at h; cases h
  rw [if_neg c1] at h
  by_cases c2 : φ .register = true
  · rw [if_pos c2] at h; cases h
  rw [if_neg c2] at h
  by_cases c3 : p.mgr.isInitialized = true ∧ p.mgr.bareMuxConnection = none
  · rw [if_pos c3] at h; cases h
  rw [if_neg c3] at h
  by_cases c4 : φ .getTransport = true
  · rw [if_pos c4] at h; cases h
  rw [if_neg c4] at h
  by_cases c5 : p.transport ≠ epoxyTransport ∧ φ .setTransport = true
  · rw [if_pos c5] at h; cases h
  rw [if_neg c5] at h
  by_cases c6 : p.mgr.isInitialized = true ∧ p.mgr.controllerLoaded = false
  · rw [if_pos c6] at h; cases h
  rw [if_neg c6] at h
  by_cases c7 : φ .newController = true
  · rw [if_pos c7] at h; cases h
  rw [if_neg c7] at h
  by_cases c8 : φ .controllerInit = true
  · rw [if_pos c8] at h; cases h
  rw [if_neg c8] at h
  by_cases c9 : φ .createFrame = true
  · rw [if_pos c9] at h; cases h
  rw [if_neg c9] at h
  by_cases c10 : φ .go = true
  · rw [if_pos c10] at h; cases h
  rw [if_neg c10] at h
  refine ⟨fun hI => ?_, fun hT => ?_, ?_⟩
  · by_cases h0 : φ .init = true
    · exact absurd ⟨hI, h0⟩ c0
    · simpa using h0
  · by_cases h5 : φ .setTransport = true
    · exact absurd ⟨hT, h5⟩ c5
    · simpa using h5
  · cases h; rfl

theorem createTab_after_failure (φ : Faults) (p : Page) (id : TabId) (url : Url) :
    (∀ e, (createTab φ p id url).1 = .error e →
      Raised φ e ∧
      (e ≠ .thrown .go → (createTab φ p id url).2.mgr.tabs = p.mgr.tabs) ∧
      (e = .thrown .go → ∃ f c conn,
        (createTab φ p id url).2.mgr.tabs = tabsSet p.mgr.tabs id ⟨f, c, conn, url⟩ ∧
        tabsGet (createTab φ p id url).2.mgr.tabs id = some ⟨f, c, conn, url⟩)) ∧
    (∀ f, (createTab φ p id url).1 = .ok f → NoneFailed φ ∧ ∃ c conn,
      (createTab φ p id url).2.mgr.tabs = tabsSet p.mgr.tabs id ⟨f, c, conn, url⟩) := by
  have hi : ∀ e, (if p.mgr.isInitialized then ((.ok (), p) : Outcome Unit) else init φ p).1
      = .error e → Raised φ e ∧ e ≠ .thrown .go := by
    intro e
    by_cases hI : p.mgr.isInitialized
    · simp [hI]
    · unfold init
      by_cases h0 : φ .init <;> simp [hI, h0]
      rintro rfl
      simp [Raised, h0]
  have ht : (if p.mgr.isInitialized then ((.ok (), p) : Outcome Unit) else init φ p).2.mgr.tabs
      = p.mgr.tabs := by
    by_cases hI : p.mgr.isInitialized
    · simp [hI]
    · simp only [hI]; exact init_tabs φ p
  unfold createTab
  rcases h0 : (if p.mgr.isInitialized then ((.ok (), p) : Outcome Unit) else init φ p)
    with ⟨e0 | u0, p0⟩
  · rw [h0] at ht
    have := hi e0 (by rw [h0])
    constructor
    · intro e h
      cases h
      exact ⟨this.1, fun _ => ht, fun hg => absurd hg this.2⟩
    · intro f h
      cases h
  · rw [h0] at ht
    simp only at ht ⊢
    have hl : ∀ ev, (p0.emit ev).mgr = p0.mgr := fun _ => rfl
    rcases h1 : createTabTry φ (p0.emit (.log ("Creating tab " ++ id ++ " for URL: " ++ url)))
      id url with ⟨e1 | f1, p1⟩
    · have := createTabTry_error φ _ id url e1 (by rw [h1])
      rw [h1] at this
      simp only [hl] at this
      constructor
      · intro e h
        simp only [createTabCatch] at h ⊢
        cases h
        refine ⟨this.1, fun hne => ?_, fun hg => ?_⟩
        · simp only [Page.emit]; rw [this.2.1 hne, ht]
        · obtain ⟨f, c, hfc⟩ := this.2.2 hg
          refine ⟨f, c, p0.mgr.bareMuxConnection, ?_, ?_⟩
          · simp only [Page.emit]; rw [hfc, ht]
          · simp only [Page.emit]; rw [hfc]; exact tabsGet_set_self _ _ _
      · intro f h
        simp [createTabCatch] at h
    · have := createTabTry_ok φ _ id url f1 (by rw [h1])
      constructor
      · intro e h
        cases h
      · intro f h
        obtain ⟨c, hc⟩ := this.2
        rw [h1] at hc
        simp only [hl] at hc
        have hf : f1 = f := by simpa using h
        subst hf
        exact ⟨this.1, c, p0.mgr.bareMuxConnection, by rw [hc, ht]⟩

/-- C1 (amended). The caller of `createTab(id, url)` receives exactly the error
of the first step that fails (initialisation, service-worker check or
registration, `getTransport`, `setTransport`, controller construction or
`init`, frame construction, navigation), and the new frame when none fails; no
failure is swallowed or replaced. If the failing step is anything but the
navigation `go(url)`, the tabs map is what it was before the call. If the
failing step is `go(url)`, the session stored just before the navigation stays
registered under `id`. A call that returns normally has met no failing step
and has stored the session of the returned frame. -/
theorem createTab_failure_leaves_tabs (φ : Faults) (p : Page) (id : TabId) (url : Url) :
    (createTab φ p id url).1 = createTabResult φ p ∧
    (∀ e, (createTab φ p id url).1 = .error e →
      Raised φ e ∧
      (e ≠ .thrown .go → (createTab φ p id url).2.mgr.tabs = p.mgr.tabs) ∧
      (e = .thrown .go → ∃ f c conn,
        (createTab φ p id url).2.mgr.tabs = tabsSet p.mgr.tabs id ⟨f, c, conn, url⟩ ∧
        tabsGet (createTab φ p id url).2.mgr.tabs id = some ⟨f, c, conn, url⟩)) ∧
    (∀ f, (createTab φ p id url).1 = .ok f →
      NoneFailed φ ∧
      (p.mgr.isInitialized = false → φ .init = false) ∧
      (p.transport ≠ epoxyTransport → φ .setTransport = false) ∧
      f = returnedFrame p ∧
      ∃ c conn,
        (createTab φ p id url).2.mgr.tabs = tabsSet p.mgr.tabs id ⟨f, c, conn, url⟩ ∧
        tabsGet (createTab φ p id url).2.mgr.tabs id = some ⟨f, c, conn, url⟩) := by
  have key := createTab_eq_result φ p id url
  have old := createTab_after_failure φ p id url
  refine ⟨key, old.1, ?_⟩
  intro f h
  obtain ⟨hn, c, conn, ht⟩ := old.2 f h
  obtain ⟨k1, k2, k3⟩ := createTabResult_ok φ p f (by rw [← key]; exact h)
  exact ⟨hn, k1, k2, k3, c, conn, ht, by rw [ht]; exact tabsGet_set_self _ _ _⟩

/-- Witness for C1: a rejected service-worker registration reaches the caller as
such and leaves the map as it was. -/
theorem createTab_failure_leaves_tabs_witness :
    (createTab (faultAt .register) readyPage "tab-1" "https://a.example/").1
      = .error (.thrown .register) ∧
    (createTab (faultAt .register) readyPage "tab-1" "https://a.example/").2.mgr.tabs
      = readyPage.mgr.tabs :=
  ⟨(createTab_failure_leaves_tabs (faultAt .register) readyPage "tab-1"
      "https://a.example/").1.trans rfl,
    ((createTab_failure_leaves_tabs (faultAt .register) readyPage "tab-1"
      "https://a.example/").2.1 (.thrown .register) rfl).2.1 (by decide)⟩

/-- C1 as stated fails: when `frame.go(url)` throws, the call rejects with that
error and the session is in the map, which was empty before the call. -/
theorem createTab_not_atomic :
    (createTab (faultAt .go) readyPage "tab-1" "https://a.example/").1
      = .error (.thrown .go) ∧
    readyPage.mgr.tabs = [] ∧
    (createTab (faultAt .go) readyPage "tab-1" "https://a.example/").2.mgr.tabs
      = [("tab-1", ⟨2, 1, some 0, "https://a.example/"⟩)] ∧
    ¬ ∀ (φ : Faults) (p : Page) (id : TabId) (url : Url) (e : JsError),
      (createTab φ p id url).1 = .error e → (createTab φ p id url).2.mgr.tabs = p.mgr.tabs := by
  refine ⟨rfl, rfl, by decide, fun h => ?_⟩
  have := h (faultAt .go) readyPage "tab-1" "https://a.example/" (.thrown .go) rfl
  revert this
  decide

theorem pc_isDone_iff_rank (pc : Pc) : pc.isDone = true ↔ pc.rank = 0 := by
  cases pc <;> simp [Pc.isDone, Pc.rank]

theorem task_step_done (t : Task) (p : Page) (r : Except JsError Handle)
    (h : t.pc = .done r) : t.step p = (.done r, p) := by
  unfold Task.step; rw [h]

theorem task_step_rank (t : Task) (p : Page) (h : t.pc.isDone = false) :
    (t.step p).1.rank < t.pc.rank := by
  unfold Task.step
  rcases hpc : t.pc with _ | r | r | r | r | r | r
  · by_cases hI : p.mgr.isInitialized <;> simp [hI, Task.afterInit, Pc.rank]
  · cases r <;> simp [Task.afterInit, Pc.rank]
  · cases r with
    | error e => simp [Task.fail, createTabCatch, Pc.rank]
    | ok u =>
      simp only
      rcases registerSWResume t.φ p with ⟨e | u, p1⟩ <;>
        simp [Task.fail, createTabCatch, Pc.rank]
  · cases r with
    | error e => simp [Task.fail, createTabCatch, Pc.rank]
    | ok tr =>
      by_cases ht : tr ≠ epoxyTransport <;> simp [ht, Task.toController, Pc.rank]
  · cases r <;> simp [Task.fail, createTabCatch, Task.toController, Pc.rank]
  · cases r with
    | error e => simp [Task.fail, createTabCatch, Pc.rank]
    | ok c =>
      simp only
      rcases finishTab t.φ p t.tabId t.url c with ⟨e | f, p1⟩ <;>
        simp [Task.fail, createTabCatch, Pc.rank]
  · simp [hpc, Pc.isDone] at h

/-- Every call settles: after as many resumptions as its rank it is done. -/
theorem task_run_isDone (n : Nat) : ∀ (t : Task) (p : Page), t.pc.rank ≤ n →
    (t.run n p).1.isDone = true := by
  induction n with
  | zero =>
    intro t p h
    simp only [Task.run]
    exact (pc_isDone_iff_rank _).2 (Nat.le_zero.1 h)
  | succ n ih =>
    intro t p h
    simp only [Task.run]
    apply ih
    by_cases hd : t.pc.isDone = true
    · obtain ⟨r, hr⟩ : ∃ r, t.pc = .done r := by
        cases hpc : t.pc <;> simp [hpc, Pc.isDone] at hd
        exact ⟨_, rfl⟩
      simp [task_step_done t p r hr, Pc.rank]
    · have := task_step_rank t p (by simpa using hd)
      simp only at this ⊢
      omega

theorem task_run_done (n : Nat) : ∀ (t : Task) (p : Page) (r : Except JsError Handle),
    t.pc = .done r → t.run n p = (.done r, p) := by
  induction n with
  | zero => intro t p r h; simp [Task.run, h]
  | succ n ih =>
    intro t p r h
    simp only [Task.run, task_step_done t p r h]
    exact ih _ p r rfl

/-- The resumption in which a call returns normally is the one that stores the
session: right after it the map holds the returned frame under the call's id. -/
theorem task_step_registers (t : Task) (p : Page) (f : Handle)
    (hnd : t.pc.isDone = false) (h : (t.step p).1 = .done (.ok f)) :
    ∃ c, tabsGet (t.step p).2.mgr.tabs t.tabId
      = some ⟨f, c, p.mgr.bareMuxConnection, t.url⟩ := by
  unfold Task.step at h ⊢
  rcases hpc : t.pc with _ | r | r | r | r | r | r
  · rw [hpc] at h
    by_cases hI : p.mgr.isInitialized <;> simp [hI, Task.afterInit] at h
  · rw [hpc] at h
    cases r <;> simp [Task.afterInit] at h
  · rw [hpc] at h
    cases r with
    | error e => simp [Task.fail, createTabCatch] at h
    | ok u =>
      simp only at h
      rcases hr : registerSWResume t.φ p with ⟨e | u, p1⟩ <;>
        simp [hr, Task.fail, createTabCatch] at h
  · rw [hpc] at h
    cases r with
    | error e => simp [Task.fail, createTabCatch] at h
    | ok tr =>
      by_cases ht : tr ≠ epoxyTransport <;> simp [ht, Task.toController] at h
  · rw [hpc] at h
    cases r <;> simp [Task.fail, createTabCatch, Task.toController] at h
  · rw [hpc] at h
    cases r with
    | error e => simp [Task.fail, createTabCatch] at h
    | ok c =>
      simp only at h ⊢
      rcases hf : finishTab t.φ p t.tabId t.url c with ⟨e | f1, p1⟩
      · simp [hf, Task.fail, createTabCatch] at h
      · simp only [hf] at h ⊢
        have hff : f1 = f := by simpa using h
        subst hff
        have := finishTab_ok t.φ p t.tabId t.url c f1 (by rw [hf])
        rw [hf] at this
        exact ⟨c, by rw [this.2.2.2]; exact tabsGet_set_self _ _ _⟩
  · simp [hpc, Pc.isDone] at hnd

theorem task_run_registers (n : Nat) : ∀ (t : Task) (p : Page) (f : Handle),
    t.pc.isDone = false → (t.run n p).1 = .done (.ok f) →
    ∃ c conn, tabsGet (t.run n p).2.mgr.tabs t.tabId = some ⟨f, c, conn, t.url⟩ := by
  induction n with
  | zero =>
    intro t p f hnd h
    simp only [Task.run] at h
    simp [h, Pc.isDone] at hnd
  | succ n ih =>
    intro t p f hnd h
    simp only [Task.run] at h ⊢
    by_cases hd : (t.step p).1.isDone = true
    · obtain ⟨r, hr⟩ : ∃ r, (t.step p).1 = .done r := by
        cases hpc : (t.step p).1 <;> simp [hpc, Pc.isDone] at hd
        exact ⟨_, rfl⟩
      have hrun := task_run_done n { t with pc := (t.step p).1 } (t.step p).2 r hr
      rw [hrun] at h ⊢
      simp only at h ⊢
      have hr2 : (t.step p).1 = .done (.ok f) := by rw [hr, h]
      obtain ⟨c, hc⟩ := task_step_registers t p f hnd hr2
      exact ⟨c, _, hc⟩
    · exact ih { t with pc := (t.step p).1 } (t.step p).2 f (by simpa using hd) h

/-- C5 (amended). `closeTab(id)` called while `createTab(id, url)` is in flight,
before the session is stored, finds nothing to remove and leaves the page as it
is; the pending call is not cancelled: it settles within six resumptions, and
when it returns normally the session for `id`, with the returned frame and
`url`, is registered in the map. The same holds on whatever page the call is
resumed, that is whatever else ran before: the resumption in which it returns
normally leaves its session in the map. -/
theorem closeTab_does_not_cancel_create (p : Page) (t : Task)
    (hfl : t.pc.isDone = false) (habs : tabsGet p.mgr.tabs t.tabId = none) :
    closeTab p t.tabId = p ∧
    (t.run 6 (closeTab p t.tabId)).1.isDone = true ∧
    (∀ f, (t.run 6 (closeTab p t.tabId)).1 = .done (.ok f) →
      ∃ c conn, tabsGet (t.run 6 (closeTab p t.tabId)).2.mgr.tabs t.tabId
        = some ⟨f, c, conn, t.url⟩) ∧
    (∀ q f, (t.step q).1 = .done (.ok f) →
      ∃ c, tabsGet (t.step q).2.mgr.tabs t.tabId
        = some ⟨f, c, q.mgr.bareMuxConnection, t.url⟩) := by
  refine ⟨closeTab_of_absent p _ habs, ?_, ?_, ?_⟩
  · apply task_run_isDone
    cases t.pc <;> simp [Pc.rank]
  · intro f h
    exact task_run_registers 6 t _ f hfl h
  · intro q f h
    exact task_step_registers t q f hfl h

/-- Witness for C5: the call suspended at `await this.registerSW()` survives the
close and registers frame 2. -/
theorem closeTab_does_not_cancel_create_witness :
    ∃ c conn, tabsGet (pendingTask.run 6 (closeTab pendingPage "tab-1")).2.mgr.tabs "tab-1"
      = some ⟨2, c, conn, "https://a.example/"⟩ :=
  (closeTab_does_not_cancel_create pendingPage pendingTask rfl rfl).2.2.1 2 rfl

/-- C5 as stated fails. `createTab("tab-1", url)` runs to its first `await`
(nothing stored yet, call pending), `closeTab("tab-1")` runs, the call is then
resumed to its end: the map holds a session for "tab-1". -/
theorem close_during_create_resurrects :
    tabsGet (Sys.run ⟨readyPage, [Task.create noFault "tab-1" "https://a.example/"]⟩
      [.resume 0]).page.mgr.tabs "tab-1" = none ∧
    (Sys.run ⟨readyPage, [Task.create noFault "tab-1" "https://a.example/"]⟩
      [.resume 0]).tasks.map (fun t => t.pc.isDone) = [false] ∧
    tabsGet (Sys.run ⟨readyPage, [Task.create noFault "tab-1" "https://a.example/"]⟩
      [.resume 0, .close "tab-1", .resume 0, .resume 0, .resume 0, .resume 0]).page.mgr.tabs
      "tab-1" = some ⟨2, 1, some 0, "https://a.example/"⟩ ∧
    (Sys.run ⟨readyPage, [Task.create noFault "tab-1" "https://a.example/"]⟩
      [.resume 0, .close "tab-1", .resume 0, .resume 0, .resume 0, .resume 0]).tasks.map
      (fun t => t.pc.isDone) = [true] := by
  refine ⟨by decide, by decide, by decide, by decide⟩

/-! ### How often the transport is configured -/

theorem setTransportCount_append (a b : List Event) :
    setTransportCount (a ++ b) = setTransportCount a + setTransportCount b := by
  induction a with
  | nil => simp [setTransportCount]
  | cons e rest ih =>
    cases e <;> simp [setTransportCount, ih]
    omega

theorem swPhaseLog_count (ph : SwPhase) : setTransportCount (swPhaseLog ph) = 0 := by
  cases ph <;> rfl

theorem init_count (φ : Faults) (p : Page) :
    setTransportCount (init φ p).2.trace = setTransportCount p.trace := by
  unfold init
  by_cases h : φ .init <;>
    simp [h, Page.emit, setTransportCount_append, setTransportCount]

theorem registerSWCall_count (p : Page) :
    setTransportCount (registerSWCall p).2.trace = setTransportCount p.trace := by
  unfold registerSWCall
  by_cases h : p.swSupported <;>
    simp [h, Page.emit, setTransportCount_append, setTransportCount]

theorem registerSWResume_count (φ : Faults) (p : Page) :
    setTransportCount (registerSWResume φ p).2.trace = setTransportCount p.trace := by
  unfold registerSWResume
  by_cases h : φ .register <;> cases hp : p.swPhase <;>
    simp [h, hp, Page.emit, swPhaseLog, setTransportCount_append, setTransportCount]

theorem getTransport_count (φ : Faults) (p : Page) :
    setTransportCount (getTransport φ p).2.trace = setTransportCount p.trace := by
  unfold getTransport
  cases h1 : p.mgr.bareMuxConnection <;> by_cases h2 : φ .getTransport <;>
    simp [h2, Page.emit, setTransportCount_append, setTransportCount]

theorem setTransport_count_le (φ : Faults) (p : Page) :
    setTransportCount (setTransport φ p).2.trace ≤ setTransportCount p.trace + 1 ∧
    setTransportCount p.trace ≤ setTransportCount (setTransport φ p).2.trace := by
  unfold setTransport
  cases h1 : p.mgr.bareMuxConnection <;> by_cases h2 : φ .setTransport <;>
    simp [h2, Page.emit, setTransportCount_append, setTransportCount]

theorem newController_count (φ : Faults) (p : Page) :
    setTransportCount (newController φ p).2.trace = setTransportCount p.trace := by
  unfold newController
  by_cases h1 : p.mgr.controllerLoaded <;> by_cases h2 : φ .newController <;>
    by_cases h3 : φ .controllerInit <;>
    simp [h1, h2, h3, Page.emit, setTransportCount_append, setTransportCount]

theorem finishTab_count (φ : Faults) (p : Page) (id : TabId) (url : Url) (c : Handle) :
    setTransportCount (finishTab φ p id url c).2.trace = setTransportCount p.trace := by
  unfold finishTab
  by_cases h1 : φ .createFrame <;> by_cases h2 : φ .go <;>
    simp [h1, h2, Page.emit, Page.setTabs, setTransportCount_append, setTransportCount]

theorem closeTab_count (p : Page) (id : TabId) :
    setTransportCount (closeTab p id).trace = setTransportCount p.trace := by
  unfold closeTab
  cases tabsGet p.mgr.tabs id <;>
    simp [Page.emit, Page.setTabs, setTransportCount_append, setTransportCount]

theorem emit_log_count (p : Page) (m : String) :
    setTransportCount (p.emit (.log m)).trace = setTransportCount p.trace := by
  simp [Page.emit, setTransportCount_append, setTransportCount]

theorem emit_error_count (p : Page) (m : String) :
    setTransportCount (p.emit (.error m)).trace = setTransportCount p.trace := by
  simp [Page.emit, setTransportCount_append, setTransportCount]

/-- One resumption posts at most one `setTransport`, and only by using up the
budget of the call; the count never goes down. -/
theorem task_step_count (t : Task) (p : Page) :
    setTransportCount (t.step p).2.trace + (t.step p).1.budget
      ≤ setTransportCount p.trace + t.pc.budget ∧
    setTransportCount p.trace ≤ setTransportCount (t.step p).2.trace := by
  unfold Task.step
  rcases hpc : t.pc with _ | r | r | r | r | r | r
  · by_cases hI : p.mgr.isInitialized
    · simp [hI, Task.afterInit, Pc.budget, registerSWCall_count, emit_log_count]
    · simp [hI, Pc.budget, init_count]
  · cases r <;> simp [Task.afterInit, Pc.budget, registerSWCall_count, emit_log_count]
  · cases r with
    | error e => simp [Task.fail, createTabCatch, Pc.budget, emit_error_count]
    | ok u =>
      simp only
      have := registerSWResume_count t.φ p
      rcases hr : registerSWResume t.φ p with ⟨e | u, p1⟩
      · rw [hr] at this
        simp only at this
        simp [Task.fail, createTabCatch, Pc.budget, emit_error_count, this]
      · rw [hr] at this
        simp only at this
        simp [Pc.budget, getTransport_count, this]
  · cases r with
    | error e => simp [Task.fail, createTabCatch, Pc.budget, emit_error_count]
    | ok tr =>
      by_cases ht : tr ≠ epoxyTransport
      · have := setTransport_count_le t.φ p
        simp only []
        rw [if_pos ht]
        simp only [Pc.budget]
        omega
      · simp [ht, Task.toController, Pc.budget, newController_count]
  · cases r <;>
      simp [Task.fail, createTabCatch, Task.toController, Pc.budget, emit_error_count,
        newController_count]
  · cases r with
    | error e => simp [Task.fail, createTabCatch, Pc.budget, emit_error_count]
    | ok c =>
      simp only
      have := finishTab_count t.φ p t.tabId t.url c
      rcases hf : finishTab t.φ p t.tabId t.url c with ⟨e | f, p1⟩
      · rw [hf] at this
        simp only at this
        simp [Task.fail, createTabCatch, Pc.budget, emit_error_count, this]
      · rw [hf] at this
        simp only at this
        simp [Pc.budget, this]
  · simp [Pc.budget]

theorem budgetSum_set : ∀ (ts : List Task) (i : Nat) (t t2 : Task), ts[i]? = some t →
    budgetSum (ts.set i t2) + t.pc.budget = budgetSum ts + t2.pc.budget := by
  intro ts
  induction ts with
  | nil => intro i t t2 h; simp at h
  | cons a rest ih =>
    intro i t t2 h
    cases i with
    | zero =>
      simp at h
      subst h
      simp [budgetSum]
      omega
    | succ i =>
      simp at h
      have := ih i t t2 h
      simp [budgetSum] at this ⊢
      omega

theorem sys_step_count (s : Sys) (a : Action) :
    setTransportCount (s.step a).page.trace + budgetSum (s.step a).tasks
      ≤ setTransportCount s.page.trace + budgetSum s.tasks ∧
    setTransportCount s.page.trace ≤ setTransportCount (s.step a).page.trace := by
  cases a with
  | close id => simp [Sys.step, closeTab_count]
  | resume i =>
    simp only [Sys.step]
    cases h : s.tasks[i]? with
    | none => simp
    | some t =>
      simp only
      have h1 := task_step_count t s.page
      have h2 := budgetSum_set s.tasks i t { t with pc := (t.step s.page).1 } h
      simp only at h2
      omega

theorem sys_run_count (sched : List Action) : ∀ (s : Sys),
    setTransportCount (s.run sched).page.trace + budgetSum (s.run sched).tasks
      ≤ setTransportCount s.page.trace + budgetSum s.tasks ∧
    setTransportCount s.page.trace ≤ setTransportCount (s.run sched).page.trace := by
  induction sched with
  | nil => intro s; simp [Sys.run]
  | cons a rest ih =>
    intro s
    have h1 := sys_step_count s a
    have h2 := ih (s.step a)
    simp only [Sys.run, List.foldl_cons] at h2 ⊢
    omega

theorem task_Pre_mono (p q : Page) (t : Task)
    (hI : p.mgr.isInitialized = true → q.mgr.isInitialized = true) (h : t.Pre p) :
    t.Pre q := by
  unfold Task.Pre at h ⊢
  refine ⟨h.1, ?_⟩
  have h2 := h.2
  cases hpc : t.pc <;> rw [hpc] at h2 <;> simp only at h2 ⊢
  · exact ⟨h2.1, hI h2.2⟩
  · exact ⟨h2.1, hI h2.2⟩
  · obtain ⟨tr, h3, h4, h5⟩ := h2
    exact ⟨tr, h3, h4, hI h5⟩

theorem task_Pre_not_done (p : Page) (t : Task) (h : t.Pre p) : t.pc.isDone = false := by
  unfold Task.Pre at h
  have h2 := h.2
  cases hpc : t.pc <;> rw [hpc] at h2 <;> simp [Pc.isDone] at h2 ⊢

/-- A resumption of such a call on an unconfigured healthy page either posts
`setTransport`, or leaves the page unconfigured and healthy and the call still
before its `setTransport`. -/
theorem task_step_pre (t : Task) (p : Page) (hH : Healthy p)
    (hT : p.transport ≠ epoxyTransport) (hP : t.Pre p) :
    setTransportCount (t.step p).2.trace = setTransportCount p.trace + 1 ∨
    (Healthy (t.step p).2 ∧ (t.step p).2.transport ≠ epoxyTransport ∧
      Task.Pre (t.step p).2 { t with pc := (t.step p).1 } ∧
      (p.mgr.isInitialized = true → (t.step p).2.mgr.isInitialized = true)) := by
  obtain ⟨hφ, hpre⟩ := hP
  obtain ⟨hsw, hconn⟩ := hH
  unfold Task.step
  rcases hpc : t.pc with _ | r | r | r | r | r | r <;> rw [hpc] at hpre <;> simp only at hpre
  · right
    by_cases hI : p.mgr.isInitialized
    · obtain ⟨conn, hc⟩ := hconn hI
      simp [hI, Task.afterInit, registerSWCall, hsw, Page.emit, Healthy, Task.Pre, hφ, hT, hc]
    · simp [hI, init, hφ, noFault, Page.emit, Healthy, Task.Pre, hsw, hT]
  · right
    obtain ⟨hr, hI⟩ := hpre
    obtain ⟨conn, hc⟩ := hconn hI
    subst hr
    simp [hI, Task.afterInit, registerSWCall, hsw, Page.emit, Healthy, Task.Pre, hφ, hT, hc]
  · right
    obtain ⟨hr, hI⟩ := hpre
    obtain ⟨conn, hc⟩ := hconn hI
    subst hr
    simp [hI, registerSWResume, getTransport, hsw, Page.emit, Healthy, Task.Pre, hφ, noFault,
      hT, hc]
  · left
    obtain ⟨tr, hr, htr, hI⟩ := hpre
    obtain ⟨conn, hc⟩ := hconn hI
    subst hr
    simp [htr, setTransport, hc, hφ, noFault, Page.emit, setTransportCount_append,
      setTransportCount]

theorem closeTab_fields (p : Page) (id : TabId) :
    (closeTab p id).swSupported = p.swSupported ∧
    (closeTab p id).mgr.isInitialized = p.mgr.isInitialized ∧
    (closeTab p id).mgr.bareMuxConnection = p.mgr.bareMuxConnection ∧
    (closeTab p id).transport = p.transport := by
  unfold closeTab
  cases tabsGet p.mgr.tabs id <;> simp [Page.emit, Page.setTabs]

theorem sys_step_unconfigured (c0 : Nat) (s : Sys) (a : Action) (hc : c0 ≤ setTransportCount s.page.trace)
    (h : Unconfigured c0 s) : Unconfigured c0 (s.step a) := by
  rcases h with h | ⟨hH, hT, hP⟩
  · left
    have := (sys_step_count s a).2
    omega
  · cases a with
    | close id =>
      right
      obtain ⟨f1, f2, f3, f4⟩ := closeTab_fields s.page id
      refine ⟨?_, ?_, ?_⟩
      · simp only [Sys.step, Healthy, f1, f2, f3]
        exact hH
      · simp only [Sys.step, f4]
        exact hT
      · intro t ht
        exact task_Pre_mono s.page (closeTab s.page id) t (fun hI => by rw [f2]; exact hI)
          (hP t ht)
    | resume i =>
      simp only [Sys.step]
      cases hi : s.tasks[i]? with
      | none => exact Or.inr ⟨hH, hT, hP⟩
      | some t =>
        simp only
        have hmem : t ∈ s.tasks := List.getElem?_mem hi
        rcases task_step_pre t s.page hH hT (hP t hmem) with h1 | ⟨h1, h2, h3, h4⟩
        · left
          show c0 + 1 ≤ setTransportCount (t.step s.page).2.trace
          omega
        · right
          refine ⟨h1, h2, ?_⟩
          intro u hu
          rcases List.mem_or_eq_of_mem_set hu with hu | hu
          · exact task_Pre_mono s.page _ u h4 (hP u hu)
          · subst hu
            exact h3

theorem sys_run_unconfigured (c0 : Nat) (sched : List Action) : ∀ (s : Sys),
    c0 ≤ setTransportCount s.page.trace → Unconfigured c0 s → Unconfigured c0 (s.run sched) := by
  induction sched with
  | nil => intro s _ h; simpa [Sys.run] using h
  | cons a rest ih =>
    intro s hc h
    have h1 := sys_step_unconfigured c0 s a hc h
    have h2 := (sys_step_count s a).2
    have := ih (s.step a) (by omega) h1
    simpa [Sys.run] using this

theorem sys_step_length (s : Sys) (a : Action) : (s.step a).tasks.length = s.tasks.length := by
  cases a with
  | close id => rfl
  | resume i =>
    simp only [Sys.step]
    cases s.tasks[i]? <;> simp

theorem sys_run_length (sched : List Action) : ∀ (s : Sys),
    (s.run sched).tasks.length = s.tasks.length := by
  induction sched with
  | nil => intro s; rfl
  | cons a rest ih =>
    intro s
    have := ih (s.step a)
    rw [sys_step_length] at this
    simpa [Sys.run] using this

theorem budgetSum_create (calls : List (TabId × Url)) :
    budgetSum (calls.map (fun c => Task.create noFault c.1 c.2)) = calls.length := by
  induction calls with
  | nil => rfl
  | cons c rest ih =>
    simp only [budgetSum, List.map_cons, List.sum_cons, List.length_cons] at ih ⊢
    rw [ih]
    simp [Task.create, Pc.budget]
    omega

/-- One uninterrupted fault-free call on a healthy page: it configures the
transport exactly when the page is not yet configured, and leaves it
configured. -/
theorem createTab_configures (p : Page) (id : TabId) (url : Url) (hH : Healthy p) :
    Healthy (createTab noFault p id url).2 ∧
    (createTab noFault p id url).2.transport = epoxyTransport ∧
    setTransportCount (createTab noFault p id url).2.trace
      = setTransportCount p.trace + (if p.transport = epoxyTransport then 0 else 1) := by
  obtain ⟨hsw, hconn⟩ := hH
  by_cases hI : p.mgr.isInitialized = true
  · obtain ⟨conn, hc⟩ := hconn hI
    by_cases hT : p.transport = epoxyTransport <;> by_cases hL : p.mgr.controllerLoaded = true <;>
      simp [createTab, createTabTry, createTabCatch, registerSW, registerSWCall,
        registerSWResume, getTransport, setTransport, newController, finishTab, noFault,
        Page.emit, Page.setTabs, Healthy, hI, hT, hL, hsw, hc, setTransportCount_append,
        setTransportCount, swPhaseLog_count]
  · by_cases hT : p.transport = epoxyTransport <;>
      simp [createTab, createTabTry, createTabCatch, init, registerSW, registerSWCall,
        registerSWResume, getTransport, setTransport, newController, finishTab, noFault,
        Page.emit, Page.setTabs, Healthy, hI, hT, hsw, setTransportCount_append,
        setTransportCount, swPhaseLog_count]

theorem createTabs_configured : ∀ (calls : List (TabId × Url)) (p : Page), Healthy p →
    p.transport = epoxyTransport →
    setTransportCount (createTabs p calls).trace = setTransportCount p.trace := by
  intro calls
  induction calls with
  | nil => intro p _ _; rfl
  | cons c rest ih =>
    intro p hH hT
    obtain ⟨id, url⟩ := c
    obtain ⟨h1, h2, h3⟩ := createTab_configures p id url hH
    simp only [createTabs]
    rw [ih _ h1 h2, h3, if_pos hT]
    rfl

/-- C4 (amended). `N >= 1` fault-free `createTab` calls are started on a healthy
page whose transport is not yet "/epoxy/index.mjs". In every interleaving of
their resumptions (and of `closeTab` calls) `setTransport` is posted at most `N`
times; once all calls have settled it has been posted at least once; and when
the calls run one after the other, each to its end, it is posted exactly
once. -/
theorem setTransport_count_bounds (p : Page) (calls : List (TabId × Url))
    (sched : List Action) (hne : calls ≠ []) (hH : Healthy p)
    (hT : p.transport ≠ epoxyTransport) :
    setTransportCount
        (Sys.run ⟨p, calls.map (fun c => Task.create noFault c.1 c.2)⟩ sched).page.trace
      ≤ setTransportCount p.trace + calls.length ∧
    ((∀ t ∈ (Sys.run ⟨p, calls.map (fun c => Task.create noFault c.1 c.2)⟩ sched).tasks,
        t.pc.isDone = true) →
      setTransportCount p.trace + 1 ≤ setTransportCount
        (Sys.run ⟨p, calls.map (fun c => Task.create noFault c.1 c.2)⟩ sched).page.trace) ∧
    setTransportCount (createTabs p calls).trace = setTransportCount p.trace + 1 := by
  refine ⟨?_, ?_, ?_⟩
  · have := (sys_run_count sched ⟨p, calls.map (fun c => Task.create noFault c.1 c.2)⟩).1
    simp only [budgetSum_create] at this
    omega
  · intro hdone
    have h0 : Unconfigured (setTransportCount p.trace)
        ⟨p, calls.map (fun c => Task.create noFault c.1 c.2)⟩ := by
      right
      refine ⟨hH, hT, ?_⟩
      intro t ht
      simp only [List.mem_map] at ht
      obtain ⟨c, _, rfl⟩ := ht
      simp [Task.Pre, Task.create]
    rcases sys_run_unconfigured (setTransportCount p.trace) sched
      ⟨p, calls.map (fun c => Task.create noFault c.1 c.2)⟩ (Nat.le_refl _) h0
      with h | ⟨_, _, hP⟩
    · exact h
    · exfalso
      have hlen := sys_run_length sched ⟨p, calls.map (fun c => Task.create noFault c.1 c.2)⟩
      simp only [List.length_map] at hlen
      have hpos : 0 < calls.length := List.length_pos.2 hne
      rcases hts : (Sys.run ⟨p, calls.map (fun c => Task.create noFault c.1 c.2)⟩ sched).tasks
        with _ | ⟨t, rest⟩
      · rw [hts] at hlen
        simp at hlen
        omega
      · have hm : t ∈ (Sys.run ⟨p, calls.map (fun c => Task.create noFault c.1 c.2)⟩
            sched).tasks := by rw [hts]; exact List.mem_cons_self _ _
        have h1 := hdone t hm
        have h2 := task_Pre_not_done _ t (hP t hm)
        rw [h1] at h2
        cases h2
  · rcases calls with _ | ⟨c, rest⟩
    · exact absurd rfl hne
    · obtain ⟨id, url⟩ := c
      obtain ⟨h1, h2, h3⟩ := createTab_configures p id url hH
      simp only [createTabs]
      rw [createTabs_configured rest _ h1 h2, h3, if_neg hT]

/-- Witness for C4: two calls on `readyPage`, resumed alternately. -/
theorem setTransport_count_bounds_witness :
    setTransportCount (createTabs readyPage
      [("tab-1", "https://a.example/"), ("tab-2", "https://b.example/")]).trace
      = setTransportCount readyPage.trace + 1 :=
  (setTransport_count_bounds readyPage
    [("tab-1", "https://a.example/"), ("tab-2", "https://b.example/")]
    [.resume 0, .resume 1, .resume 0, .resume 1]
    (by decide) ⟨rfl, fun _ => ⟨0, rfl⟩⟩ (by decide)).2.2

/-- C4 as stated fails. Two calls are started on a page whose transport is not
configured and resumed alternately until both have settled: both transport
checks are answered before either `setTransport` is posted, and it is posted
twice. -/
theorem concurrent_createTab_configures_twice :
    readyPage.transport ≠ epoxyTransport ∧
    setTransportCount readyPage.trace = 0 ∧
    (Sys.run ⟨readyPage, [Task.create noFault "tab-1" "https://a.example/",
        Task.create noFault "tab-2" "https://b.example/"]⟩
      [.resume 0, .resume 1, .resume 0, .resume 1, .resume 0, .resume 1, .resume 0,
        .resume 1, .resume 0, .resume 1]).tasks.map (fun t => t.pc.isDone) = [true, true] ∧
    setTransportCount (Sys.run ⟨readyPage, [Task.create noFault "tab-1" "https://a.example/",
        Task.create noFault "tab-2" "https://b.example/"]⟩
      [.resume 0, .resume 1, .resume 0, .resume 1, .resume 0, .resume 1, .resume 0,
        .resume 1, .resume 0, .resume 1]).page.trace = 2 := by
  refine ⟨by decide, by decide, by decide, by decide⟩

/-! ### The coroutine agrees with the uninterrupted `createTab` -/

theorem task_run_succ (t : Task) (n : Nat) (p : Page) :
    t.run (n + 1) p = Task.run { t with pc := (t.step p).1 } n (t.step p).2 := rfl

theorem task_run_awaitControllerInit (id : TabId) (url : Url) (φ : Faults) (n : Nat) (p : Page)
    (r : Except JsError Handle) :
    Task.run ⟨id, url, φ, .awaitControllerInit r⟩ (n + 1) p =
      (.done (restControllerInit φ id url r p).1, (restControllerInit φ id url r p).2) := by
  rw [task_run_succ]
  cases r with
  | error e => exact task_run_done n _ _ _ rfl
  | ok c =>
    simp only [Task.step, restControllerInit]
    rcases finishTab φ p id url c with ⟨e | f, q⟩
    · exact task_run_done n _ _ _ rfl
    · exact task_run_done n _ _ _ rfl

theorem task_run_toController (id : TabId) (url : Url) (φ : Faults) (n : Nat) (p : Page)
    (pc : Pc) :
    Task.run ⟨id, url, φ, (Task.toController ⟨id, url, φ, pc⟩ p).1⟩ (n + 1)
        (Task.toController ⟨id, url, φ, pc⟩ p).2 =
      (.done (restToController φ id url p).1, (restToController φ id url p).2) :=
  task_run_awaitControllerInit id url φ n _ _

theorem task_run_awaitSetTransport (id : TabId) (url : Url) (φ : Faults) (n : Nat) (p : Page)
    (r : Except JsError Unit) :
    Task.run ⟨id, url, φ, .awaitSetTransport r⟩ (n + 2) p =
      (.done (restSetTransport φ id url r p).1, (restSetTransport φ id url r p).2) := by
  rw [task_run_succ]
  cases r with
  | error e => exact task_run_done _ _ _ _ rfl
  | ok u => exact task_run_toController id url φ n p _

theorem task_run_awaitGetTransport (id : TabId) (url : Url) (φ : Faults) (n : Nat) (p : Page)
    (r : Except JsError String) :
    Task.run ⟨id, url, φ, .awaitGetTransport r⟩ (n + 3) p =
      (.done (restGetTransport φ id url r p).1, (restGetTransport φ id url r p).2) := by
  rw [task_run_succ]
  cases r with
  | error e => exact task_run_done _ _ _ _ rfl
  | ok tr =>
    simp only [Task.step, restGetTransport]
    by_cases ht : tr ≠ epoxyTransport
    · rw [if_pos ht, if_pos ht]
      exact task_run_awaitSetTransport id url φ n _ _
    · rw [if_neg ht, if_neg ht]
      exact task_run_toController id url φ (n + 1) p _

theorem task_run_awaitRegisterSW (id : TabId) (url : Url) (φ : Faults) (n : Nat) (p : Page)
    (r : Except JsError Unit) :
    Task.run ⟨id, url, φ, .awaitRegisterSW r⟩ (n + 4) p =
      (.done (restRegisterSW φ id url r p).1, (restRegisterSW φ id url r p).2) := by
  rw [task_run_succ]
  cases r with
  | error e => exact task_run_done _ _ _ _ rfl
  | ok u =>
    simp only [Task.step, restRegisterSW]
    rcases registerSWResume φ p with ⟨e | u, q⟩
    · exact task_run_done _ _ _ _ rfl
    · exact task_run_awaitGetTransport id url φ n _ _

theorem task_run_afterInit (id : TabId) (url : Url) (φ : Faults) (n : Nat) (p : Page)
    (pc : Pc) :
    Task.run ⟨id, url, φ, (Task.afterInit ⟨id, url, φ, pc⟩ p).1⟩ (n + 4)
        (Task.afterInit ⟨id, url, φ, pc⟩ p).2 =
      (.done (restAfterInit φ id url p).1, (restAfterInit φ id url p).2) :=
  task_run_awaitRegisterSW id url φ n _ _

theorem task_run_awaitInit (id : TabId) (url : Url) (φ : Faults) (n : Nat) (p : Page)
    (r : Except JsError Unit) :
    Task.run ⟨id, url, φ, .awaitInit r⟩ (n + 5) p =
      (.done (restInit φ id url r p).1, (restInit φ id url r p).2) := by
  rw [task_run_succ]
  cases r with
  | error e => exact task_run_done _ _ _ _ rfl
  | ok u => exact task_run_afterInit id url φ n p _

theorem task_run_start (id : TabId) (url : Url) (φ : Faults) (n : Nat) (p : Page) :
    Task.run ⟨id, url, φ, .start⟩ (n + 6) p =
      (.done (restStart φ id url p).1, (restStart φ id url p).2) := by
  rw [task_run_succ]
  simp only [Task.step, restStart]
  by_cases hI : p.mgr.isInitialized = true
  · rw [if_pos hI, if_pos hI]
    exact task_run_afterInit id url φ (n + 1) p _
  · rw [if_neg hI, if_neg hI]
    exact task_run_awaitInit id url φ n _ _

theorem restToController_eq (φ : Faults) (id : TabId) (url : Url) (p : Page) :
    restToController φ id url p =
      match (match newController φ p with
        | (.error e, p) => (.error e, p)
        | (.ok c, p) => finishTab φ p id url c : Outcome Handle) with
      | (.error e, q) => createTabCatch id e q
      | (.ok f, q) => (.ok f, q) := by
  unfold restToController restControllerInit
  rcases newController φ p with ⟨e | c, q⟩ <;> rfl

theorem restAfterInit_eq (φ : Faults) (id : TabId) (url : Url) (p : Page) :
    restAfterInit φ id url p =
      match createTabTry φ (p.emit (.log ("Creating tab " ++ id ++ " for URL: " ++ url)))
        id url with
      | (.error e, q) => createTabCatch id e q
      | (.ok f, q) => (.ok f, q) := by
  unfold restAfterInit restRegisterSW createTabTry registerSW
  rcases registerSWCall (p.emit (.log ("Creating tab " ++ id ++ " for URL: " ++ url)))
    with ⟨e1 | u1, p1⟩
  · rfl
  · simp only
    rcases registerSWResume φ p1 with ⟨e2 | u2, p2⟩
    · rfl
    · simp only [restGetTransport]
      rcases getTransport φ p2 with ⟨e3 | tr, p3⟩
      · rfl
      · simp only
        by_cases ht : tr ≠ epoxyTransport
        · rw [if_pos ht, if_pos ht]
          unfold restSetTransport
          rcases setTransport φ p3 with ⟨e4 | u4, p4⟩
          · rfl
          · exact restToController_eq φ id url p4
        · rw [if_neg ht, if_neg ht]
          exact restToController_eq φ id url p3

theorem restStart_eq_createTab (φ : Faults) (p : Page) (id : TabId) (url : Url) :
    restStart φ id url p = createTab φ p id url := by
  unfold restStart createTab restInit
  by_cases hI : p.mgr.isInitialized = true
  · rw [if_pos hI, if_pos hI]
    exact restAfterInit_eq φ id url p
  · rw [if_neg hI, if_neg hI]
    rcases init φ p with ⟨e | u, q⟩
    · rfl
    · exact restAfterInit_eq φ id url q

/-- Resumed six times with nothing in between, the coroutine of `createTab`
settles with the result and the page of the uninterrupted `createTab`. -/
theorem task_run_create (φ : Faults) (p : Page) (id : TabId) (url : Url) :
    (Task.create φ id url).run 6 p
      = (.done (createTab φ p id url).1, (createTab φ p id url).2) := by
  rw [← restStart_eq_createTab]
  exact task_run_start id url φ 0 p

/-! ## Theorems: `search` -/

/-- C6, the code at the failing input. With the template
"https://www.google.com/search?q=%s" and the query "example", which is not a
URL, `search` returns the template cut after its path, without the query
string and without the query; the specification asks for the template with
`%s` replaced. On every platform the result is built from the origin and the
path of the template alone. -/
theorem search_drops_query_string :
    simplePlatform.parseURL "example" = none ∧
    search simplePlatform "example" "https://www.google.com/search?q=%s"
      = some "https://www.google.com/search" ∧
    searchSpec "example" "https://www.google.com/search?q=%s"
      = "https://www.google.com/search?q=example" ∧
    (∀ (P : Platform) (query tmpl : String) (u : URLRecord), query ≠ "" →
      P.parseURL query = none → P.parseURL tmpl = some u →
      search P query tmpl
        = some (u.origin ++ replaceFirst u.pathname "%s" (encodeURIComponent query))) := by
  refine ⟨by decide, by decide, by decide, ?_⟩
  intro P query tmpl u hq h1 h2
  simp [search, hq, h1, h2]

/-! ## Theorems: the gateway -/

/-- C7. The upgrade handler calls `wisp.routeRequest` exactly when the request
url starts with "/wisp/", and then with the original request, socket and head;
for any other url ("/wisp" and "/other" among them) it only ends the socket,
writing nothing; when `routeRequest` throws, the error is logged and the socket
ended; so every upgrade ends either routed or with the socket ended. -/
theorem upgrade_routes_only_wisp (routeThrows : Bool) (req : Request) (socket : Socket)
    (head : Bytes) :
    ((∃ r s h, UpgradeEvent.routeRequest r s h ∈ onUpgrade routeThrows req socket head)
      ↔ startsWith req.url "/wisp/" = true) ∧
    (∀ r s h, UpgradeEvent.routeRequest r s h ∈ onUpgrade routeThrows req socket head →
      r = req ∧ s = socket ∧ h = head) ∧
    (startsWith req.url "/wisp/" = false →
      onUpgrade routeThrows req socket head = [.socketEnd socket none]) ∧
    (startsWith req.url "/wisp/" = true → routeThrows = true →
      onUpgrade routeThrows req socket head =
        [.routeRequest req socket head, .consoleError "[Wisp Upgrade Error]",
          .socketEnd socket none]) ∧
    (onUpgrade routeThrows req socket head = [.routeRequest req socket head] ∨
      (onUpgrade routeThrows req socket head).getLast? = some (.socketEnd socket none)) ∧
    startsWith "/wisp/anything" "/wisp/" = true ∧
    startsWith "/wisp" "/wisp/" = false ∧
    startsWith "/other" "/wisp/" = false := by
  refine ⟨?_, ?_, ?_, ?_, ?_, by decide, by decide, by decide⟩
  · unfold onUpgrade
    by_cases h : startsWith req.url "/wisp/" = true <;> cases routeThrows <;> simp [h]
  · intro r s h'
    unfold onUpgrade
    by_cases h : startsWith req.url "/wisp/" = true <;> cases routeThrows <;> simp [h]
  · intro h
    simp [onUpgrade, h]
  · intro h ht
    simp [onUpgrade, h, ht]
  · unfold onUpgrade
    by_cases h : startsWith req.url "/wisp/" = true <;> cases routeThrows <;> simp [h]

/-- C10, the code at the failing input. A chunk of elevated severity that the
child writes to standard output is not surfaced: the handler writes nothing to
the console, for this chunk and for every other one. -/
theorem stdout_handler_surfaces_nothing :
    includes "ERROR: tunnel backend crashed" "INFO" = false ∧
    onStdoutData "ERROR: tunnel backend crashed" = [] ∧
    ∀ d, onStdoutData d = [] := by
  refine ⟨by decide, by decide, ?_⟩
  intro d
  simp [onStdoutData]

/-- C8. `shutdown`, run in a live process on SIGINT or SIGTERM, logs, kills the
child, closes the server and exits with status 0, in this order; after any
number of its statements, if the process has exited then the child has been
killed and the server closed before. -/
theorem shutdown_order (g : Gateway) (h : g.exited = none) :
    (shutdown g).events = g.events ++
      [.log "Shutting down DoxyEdu Web Proxy...", .childKill, .serverClose, .exit 0] ∧
    (shutdown g).childKilled = true ∧ (shutdown g).closing = true ∧
    (shutdown g).exited = some 0 ∧
    (∀ k, (execAll g (shutdownBody.take k)).exited ≠ none →
      (execAll g (shutdownBody.take k)).childKilled = true ∧
      (execAll g (shutdownBody.take k)).closing = true ∧
      (execAll g (shutdownBody.take k)).exited = some 0) ∧
    (∀ sig, onSignal g sig = shutdown g) := by
  refine ⟨?_, ?_, ?_, ?_, ?_, ?_⟩
  · simp [shutdown, execAll, shutdownBody, Stmt.exec, h]
  · simp [shutdown, execAll, shutdownBody, Stmt.exec, h]
  · simp [shutdown, execAll, shutdownBody, Stmt.exec, h]
  · simp [shutdown, execAll, shutdownBody, Stmt.exec, h]
  · intro k
    rcases k with _ | _ | _ | _ | k <;>
      simp [execAll, shutdownBody, Stmt.exec, h]
  · intro sig; cases sig <;> rfl

/-- Witness for C7: an upgrade to "/other" only ends the socket. -/
theorem upgrade_routes_only_wisp_witness :
    onUpgrade true ⟨"/other"⟩ 7 [] = [.socketEnd 7 none] :=
  (upgrade_routes_only_wisp true ⟨"/other"⟩ 7 []).2.2.1 (by decide)

/-- Witness for C8 on the serving gateway. -/
theorem shutdown_order_witness :
    (shutdown serving).events = serving.events ++
      [.log "Shutting down DoxyEdu Web Proxy...", .childKill, .serverClose, .exit 0] :=
  (shutdown_order serving rfl).1

/-! ### The listening port -/

theorem digitsValue_append (radix : Nat) (l : List Nat) (d : Nat) :
    digitsValue radix (l ++ [d]) = digitsValue radix l * radix + d := by
  simp [digitsValue, List.foldl_append]

theorem digitValue_decDigit (c : Char) (h : isDecDigit c) :
    digitValue 10 c = some (c.toNat - 48) := by
  unfold digitValue
  simp only [h.1, h.2, and_self, if_true]

theorem leadingDigits_decimal (ds junk : List Char) (hds : ∀ c ∈ ds, isDecDigit c)
    (hj : ∀ c rest, junk = c :: rest → digitValue 10 c = none) :
    leadingDigits 10 (ds ++ junk) = ds.map (fun c => c.toNat - 48) := by
  induction ds with
  | nil =>
    cases junk with
    | nil => rfl
    | cons c rest => simp [leadingDigits, hj c rest rfl]
  | cons d rest ih =>
    have hd := hds d (List.mem_cons_self _ _)
    have := ih (fun c hc => hds c (List.mem_cons_of_mem _ hc))
    simp [leadingDigits, digitValue_decDigit d hd, this]

theorem decDigit_not_space (c : Char) (h : isDecDigit c) : isStrWhiteSpace c = false := by
  unfold isStrWhiteSpace
  obtain ⟨h1, h2⟩ := h
  simp only [Bool.or_eq_false_iff, Bool.and_eq_false_iff, decide_eq_false_iff_not]
  refine ⟨⟨⟨⟨⟨⟨⟨⟨⟨⟨⟨⟨⟨⟨?_, ?_⟩, ?_⟩, ?_⟩, ?_⟩, ?_⟩, ?_⟩, ?_⟩, ?_⟩, ?_⟩, ?_⟩, ?_⟩, ?_⟩, ?_⟩, ?_⟩ <;>
    omega

theorem decDigit_facts (d : Char) (hd : isDecDigit d) :
    isStrWhiteSpace d = false ∧ d ≠ '-' ∧ d ≠ '+' ∧ d ≠ 'x' ∧ d ≠ 'X' := by
  refine ⟨decDigit_not_space d hd, ?_, ?_, ?_, ?_⟩ <;>
  · rintro rfl
    have := hd
    revert this
    unfold isDecDigit
    decide

/-- `parseInt` on a run of decimal digits followed by anything that does not
continue it: the value of the run, rounded to a Number. -/
theorem parseIntChars_decimal (ds junk : List Char) (hne : ds ≠ [])
    (hds : ∀ c ∈ ds, isDecDigit c)
    (hj : ∀ c rest, junk = c :: rest → digitValue 10 c = none)
    (hx : (ds ++ junk).take 2 ≠ ['0', 'x'] ∧ (ds ++ junk).take 2 ≠ ['0', 'X']) :
    parseIntChars (ds ++ junk) =
      (match roundToDouble (digitsValue 10 (ds.map (fun c => c.toNat - 48))) with
      | none => .inf false
      | some v => .finite v) ∧
    parseIntChars ('-' :: (ds ++ junk)) =
      (match roundToDouble (digitsValue 10 (ds.map (fun c => c.toNat - 48))) with
      | none => .inf true
      | some v => .finite (-(v : Int))) := by
  obtain ⟨d, rest, rfl⟩ : ∃ d rest, ds = d :: rest := by
    cases ds with
    | nil => exact absurd rfl hne
    | cons d rest => exact ⟨d, rest, rfl⟩
  have hd : isDecDigit d := hds d (List.mem_cons_self _ _)
  obtain ⟨hsp, hminus, hplus, -, -⟩ := decDigit_facts d hd
  have hdrop : List.dropWhile isStrWhiteSpace (d :: rest ++ junk) = d :: rest ++ junk := by
    simp [List.dropWhile, hsp]
  have hdrop2 : List.dropWhile isStrWhiteSpace ('-' :: (d :: rest ++ junk))
      = '-' :: (d :: rest ++ junk) := by
    have : isStrWhiteSpace '-' = false := by decide
    simp [List.dropWhile, this]
  have hhead : (d :: rest ++ junk).head? = some d := rfl
  constructor
  · unfold parseIntChars
    simp only [hdrop]
    simp only [hhead, Option.some.injEq, hminus, hplus, or_self, if_false, decide_False,
      hx.1, hx.2, Bool.false_eq_true]
    rw [leadingDigits_decimal (d :: rest) junk hds hj]
    simp
  · unfold parseIntChars
    simp only [hdrop2]
    simp only [List.head?_cons, List.tail_cons, true_or, if_true, decide_True,
      hx.1, hx.2, or_self, decide_False, Bool.false_eq_true, if_false]
    rw [leadingDigits_decimal (d :: rest) junk hds hj]
    simp

theorem digitChar_decDigit (k : Nat) (h : k < 10) :
    isDecDigit (Nat.digitChar k) ∧ (Nat.digitChar k).toNat - 48 = k := by
  unfold isDecDigit
  interval_cases k <;> decide

theorem toDigitsCore_append (f : Nat) : ∀ (n : Nat) (ds : List Char),
    Nat.toDigitsCore 10 f n ds = Nat.toDigitsCore 10 f n [] ++ ds := by
  induction f with
  | zero => intro n ds; simp [Nat.toDigitsCore]
  | succ f ih =>
    intro n ds
    simp only [Nat.toDigitsCore]
    by_cases h0 : n / 10 = 0
    · simp [h0]
    · simp only [h0, if_false]
      rw [ih (n / 10) (Nat.digitChar (n % 10) :: ds), ih (n / 10) [Nat.digitChar (n % 10)]]
      simp

theorem toDigitsCore_spec (f : Nat) : ∀ n, n < f →
    (∀ c ∈ Nat.toDigitsCore 10 f n [], isDecDigit c) ∧
    Nat.toDigitsCore 10 f n [] ≠ [] ∧
    digitsValue 10 ((Nat.toDigitsCore 10 f n []).map (fun c => c.toNat - 48)) = n := by
  induction f with
  | zero => intro n hn; omega
  | succ f ih =>
    intro n hn
    have hk := digitChar_decDigit (n % 10) (Nat.mod_lt _ (by decide))
    simp only [Nat.toDigitsCore]
    by_cases h0 : n / 10 = 0
    · simp only [h0, if_true]
      refine ⟨?_, by simp, ?_⟩
      · intro c hc
        simp only [List.mem_singleton] at hc
        subst hc
        exact hk.1
      · simp only [List.map_cons, List.map_nil, digitsValue, List.foldl_cons, List.foldl_nil,
          hk.2]
        omega
    · simp only [h0, if_false]
      rw [toDigitsCore_append]
      have hlt : n / 10 < f := by omega
      obtain ⟨h1, h2, h3⟩ := ih (n / 10) hlt
      refine ⟨?_, by simp, ?_⟩
      · intro c hc
        simp only [List.mem_append, List.mem_singleton] at hc
        rcases hc with hc | hc
        · exact h1 c hc
        · subst hc; exact hk.1
      · rw [List.map_append, List.map_cons, List.map_nil, digitsValue_append, h3, hk.2]
        omega

theorem toString_data (n : Nat) : (toString n).data = Nat.toDigits 10 n := rfl

theorem roundToDouble_small (n : Nat) (h : n < 2 ^ 53) : roundToDouble n = some n := by
  unfold roundToDouble
  rw [if_pos h]

/-- `parseInt` reads back the decimal representation of a natural number below
`2 ^ 53`, with or without a minus sign, whatever follows it. -/
theorem parseIntChars_toString (n : Nat) (junk : List Char) (hn : n < 2 ^ 53)
    (hj : ∀ c rest, junk = c :: rest → digitValue 10 c = none)
    (hx : n = 0 → junk.head? ≠ some 'x' ∧ junk.head? ≠ some 'X') :
    parseIntChars ((toString n).data ++ junk) = .finite n ∧
    parseIntChars ('-' :: ((toString n).data ++ junk)) = .finite (-(n : Int)) := by
  rw [toString_data]
  unfold Nat.toDigits
  obtain ⟨h1, h2, h3⟩ := toDigitsCore_spec (n + 1) n (Nat.lt_succ_self n)
  have key := parseIntChars_decimal (Nat.toDigitsCore 10 (n + 1) n []) junk h2 h1 hj ?_
  · rw [h3, roundToDouble_small n hn] at key
    exact key
  · rcases hl : Nat.toDigitsCore 10 (n + 1) n [] with _ | ⟨d, _ | ⟨d2, rest⟩⟩
    · exact absurd hl h2
    · rw [hl] at h3
      have hd : isDecDigit d := h1 d (by rw [hl]; exact List.mem_cons_self _ _)
      simp only [List.map_cons, List.map_nil, digitsValue, List.foldl_cons, List.foldl_nil]
        at h3
      have hzero : d = '0' → n = 0 := by
        rintro rfl
        rw [← h3]
        decide
      cases junk with
      | nil => simp
      | cons j jr =>
        simp only [List.singleton_append, List.take_succ_cons, List.take_zero, ne_eq,
          List.cons.injEq, and_true, not_and]
        constructor
        · intro hd0 hjx
          have := (hx (hzero hd0)).1
          simp [hjx] at this
        · intro hd0 hjx
          have := (hx (hzero hd0)).2
          simp [hjx] at this
    · have hd2 : isDecDigit d2 := h1 d2 (by rw [hl]; simp)
      obtain ⟨-, -, -, hx1, hx2⟩ := decDigit_facts d2 hd2
      simp [hx1, hx2]

theorem parseIntChars_nan_of_head (c : Char) (rest : List Char)
    (hsp : isStrWhiteSpace c = false) (hm : c ≠ '-') (hp : c ≠ '+')
    (hd : digitValue 10 c = none) : parseIntChars (c :: rest) = .nan := by
  have hdrop : List.dropWhile isStrWhiteSpace (c :: rest) = c :: rest := by
    simp [List.dropWhile, hsp]
  have h0 : c ≠ '0' := by
    rintro rfl
    revert hd
    decide
  unfold parseIntChars
  simp only [hdrop, List.head?_cons, Option.some.injEq, hm, hp, or_self, if_false]
  have hx1 : List.take 2 (c :: rest) ≠ ['0', 'x'] := by
    intro h
    have : c = '0' := by
      cases rest <;> simp at h
      exact h.1
    exact h0 this
  have hx2 : List.take 2 (c :: rest) ≠ ['0', 'X'] := by
    intro h
    have : c = '0' := by
      cases rest <;> simp at h
      exact h.1
    exact h0 this
  simp only [hx1, hx2, or_self, decide_False, Bool.false_eq_true, if_false, leadingDigits, hd,
    if_true]

/-- C9 (amended). The port is 8080 when `PORT` is absent, empty, or `parseInt`
finds no integer at its start (in particular when its first character is
neither white space, a sign nor a decimal digit). Otherwise the port is what
`parseInt` reads: for the decimal representation of a natural number
`n < 2 ^ 53`, alone or followed by any characters that do not continue the
number, the port is `n`, and with a minus sign in front it is `-n`. -/
theorem port_reads_leading_integer :
    port none = .finite 8080 ∧
    port (some "") = .finite 8080 ∧
    (∀ s, parseInt s = .nan → port (some s) = .finite 8080) ∧
    (∀ s, parseInt s ≠ .nan → port (some s) = parseInt s) ∧
    (∀ c rest, isStrWhiteSpace c = false → c ≠ '-' → c ≠ '+' → digitValue 10 c = none →
      port (some ⟨c :: rest⟩) = .finite 8080) ∧
    (∀ (n : Nat) (junk : List Char), n < 2 ^ 53 →
      (∀ c rest, junk = c :: rest → digitValue 10 c = none) →
      (n = 0 → junk.head? ≠ some 'x' ∧ junk.head? ≠ some 'X') →
      port (some ⟨(toString n).data ++ junk⟩) = .finite n ∧
      port (some ⟨'-' :: ((toString n).data ++ junk)⟩) = .finite (-(n : Int))) := by
  have hport : ∀ s, port (some s) = if (parseInt s).isNaN then .finite 8080 else parseInt s := by
    intro s
    unfold port
    by_cases h : s = ""
    · subst h; rfl
    · simp only [h, if_false]
  refine ⟨by decide, by decide, ?_, ?_, ?_, ?_⟩
  · intro s h
    rw [hport, h]; rfl
  · intro s h
    rw [hport]
    cases hp : parseInt s with
    | nan => exact absurd hp h
    | inf b => rfl
    | finite v => rfl
  · intro c rest h1 h2 h3 h4
    rw [hport]
    have : parseInt ⟨c :: rest⟩ = .nan := parseIntChars_nan_of_head c rest h1 h2 h3 h4
    rw [this]; rfl
  · intro n junk hn hj hx
    obtain ⟨k1, k2⟩ := parseIntChars_toString n junk hn hj hx
    constructor
    · rw [hport]
      have : parseInt ⟨(toString n).data ++ junk⟩ = .finite n := k1
      rw [this]; rfl
    · rw [hport]
      have : parseInt ⟨'-' :: ((toString n).data ++ junk)⟩ = .finite (-(n : Int)) := k2
      rw [this]; rfl

/-- Witness for C9: `PORT=3000`. -/
theorem port_reads_leading_integer_witness :
    port (some ⟨(toString 3000).data ++ []⟩) = .finite (3000 : Nat) :=
  (port_reads_leading_integer.2.2.2.2.2 3000 [] (by norm_num) (by simp) (by simp)).1

/-- C9 as stated fails: "80abc" is not the decimal representation of an integer,
and the port is 80, not the default. -/
theorem port_accepts_numeric_prefix :
    isDecimalInteger "80abc" = false ∧
    port (some "80abc") = .finite 80 ∧
    port (some "80abc") ≠ .finite 8080 := by
  refine ⟨by decide, by decide, by decide⟩

end DoxyEdu
